import Mathlib

/-!
Verification development for the chrono-mcp batch time-arithmetic engine
(`src/tools/time-calculator.ts`, second revision, plus `src/utils/date-utils.ts`).

The TypeScript source is shallowly embedded below.  Instants are modelled as
signed milliseconds since the Unix epoch (`Int`), mirroring Luxon's
`DateTime.toMillis`/`valueOf`.  Zones are modelled as fixed-offset zones
supplied by an environment record (the spec treats timezone validity and
offsets as capabilities of an external collaborator); daylight-saving
transitions are outside the model.  Luxon's calendar arithmetic
(`DateTime.plus`, `DateTime.diff`) is embedded for this fixed-offset setting,
following Luxon's `src/impl/diff.js` algorithm.  JavaScript numbers are
modelled as `Int` where the program only ever produces integers and as `Rat`
for the statistics means/variances; `Math.sqrt` is a parameter of the
environment, since no claim depends on its value.
-/

namespace Chrono

/-! ## Gregorian calendar core (civil-date conversions, Hinnant's algorithms) -/

/-- Leap-year test for the proleptic Gregorian calendar. -/
def isLeapYear (y : Int) : Bool :=
  y % 4 = 0 && (y % 100 ≠ 0 || y % 400 = 0)

/-- Number of days in month `m` (1-12) of year `y`. -/
def daysInMonth (y m : Int) : Int :=
  if m = 2 then (if isLeapYear y then 29 else 28)
  else if m = 4 || m = 6 || m = 9 || m = 11 then 30
  else 31

/-- Days since 1970-01-01 of the civil date `(y, m, d)`. -/
def daysFromCivil (y m d : Int) : Int :=
  let y := y - (if m ≤ 2 then 1 else 0)
  let era := y / 400
  let yoe := y - era * 400
  let mp := (m + 9) % 12
  let doy := (153 * mp + 2) / 5 + d - 1
  let doe := yoe * 365 + yoe / 4 - yoe / 100 + doy
  era * 146097 + doe - 719468

/-- Civil date `(y, m, d)` of the day `z` days after 1970-01-01. -/
def civilFromDays (z : Int) : Int × Int × Int :=
  let z := z + 719468
  let era := z / 146097
  let doe := z - era * 146097
  let yoe := (doe - doe / 1460 + doe / 36524 - doe / 146096) / 365
  let y := yoe + era * 400
  let doy := doe - (365 * yoe + yoe / 4 - yoe / 100)
  let mp := (5 * doy + 2) / 153
  let d := doy - (153 * mp + 2) / 5 + 1
  let m := if mp < 10 then mp + 3 else mp - 9
  (y + (if m ≤ 2 then 1 else 0), m, d)

/-- Milliseconds per calendar day. -/
def msPerDay : Int := 86400000

/-- Index of the UTC day containing instant `ms` (Luxon's `utcDayStart` divided
by a day, used by its `dayDiff`). -/
def dayIndex (ms : Int) : Int := ms / msPerDay

/-- Civil date of the UTC day containing instant `ms`. -/
def civilOf (ms : Int) : Int × Int × Int := civilFromDays (dayIndex ms)

/-- Calendar year of instant `ms` (Luxon's `DateTime.year` in the model's
fixed-offset-zero display zone). -/
def yearOf (ms : Int) : Int := (civilOf ms).1

/-- Zero-based absolute month index (`year * 12 + month - 1`) of instant `ms`;
differences of this quantity are Luxon's month differ. -/
def monthIdxOf (ms : Int) : Int :=
  let c := civilOf ms
  c.1 * 12 + (c.2.1 - 1)

/-- Instant of a civil date plus wall-clock time, at offset zero. -/
def mkMs (y m d hh mi ss ms : Int) : Int :=
  daysFromCivil y m d * msPerDay + hh * 3600000 + mi * 60000 + ss * 1000 + ms

/-! ## Luxon calendar arithmetic (fixed-offset model) -/

/-- Add `n` calendar months to instant `ms`, clamping the day-of-month to the
target month's length and keeping the time of day — Luxon's `adjustTime` for a
month/year duration in a fixed-offset zone. -/
def addMonthsClamp (ms n : Int) : Int :=
  let day := ms / msPerDay
  let tod := ms % msPerDay
  let c := civilFromDays day
  let mi := c.1 * 12 + (c.2.1 - 1) + n
  let y2 := mi / 12
  let m2 := mi % 12 + 1
  let d2 := min c.2.2 (daysInMonth y2 m2)
  daysFromCivil y2 m2 d2 * msPerDay + tod

/-- Calendar part of Luxon's `DateTime.plus`: years and months are merged into
a single clamped month addition, then days are added as fixed 24-hour days
(exact in a fixed-offset zone). -/
def plusCal (ms y m d : Int) : Int :=
  addMonthsClamp ms (y * 12 + m) + d * msPerDay

/-- Duration breakdown with the seven units the handler requests from
`DateTime.diff`. -/
structure Breakdown where
  years : Int
  months : Int
  days : Int
  hours : Int
  minutes : Int
  seconds : Int
  milliseconds : Int
deriving Repr, DecidableEq

/-- Negate every component of a breakdown (`Duration.negate`). -/
def Breakdown.neg (b : Breakdown) : Breakdown :=
  ⟨-b.years, -b.months, -b.days, -b.hours, -b.minutes, -b.seconds, -b.milliseconds⟩

/-- Milliseconds contributed by the fixed (sub-day) units of a breakdown. -/
def fixedMs (h mi s ms : Int) : Int :=
  h * 3600000 + mi * 60000 + s * 1000 + ms

/-- Luxon's `DateTime.plus` for a full breakdown: calendar part first, then the
fixed units as exact milliseconds. -/
def plusDuration (base : Int) (b : Breakdown) : Int :=
  plusCal base b.years b.months b.days
    + fixedMs b.hours b.minutes b.seconds b.milliseconds

/-- Shift a signed millisecond remainder into hours/minutes/seconds/ms with all
components sharing the remainder's sign — `Duration.shiftTo` on the four fixed
units. -/
def shiftMs (rem : Int) : Int × Int × Int × Int :=
  let a := |rem|
  let sgn : Int := if rem < 0 then -1 else 1
  (sgn * (a / 3600000), sgn * (a % 3600000 / 60000),
   sgn * (a % 60000 / 1000), sgn * (a % 1000))

theorem shiftMs_recombine (rem : Int) :
    fixedMs (shiftMs rem).1 (shiftMs rem).2.1 (shiftMs rem).2.2.1
      (shiftMs rem).2.2.2 = rem := by
  unfold shiftMs fixedMs
  rcases le_or_lt 0 rem with h | h
  · rw [abs_of_nonneg h]
    simp only [if_neg (not_lt.mpr h)]
    omega
  · rw [abs_of_neg h]
    simp only [if_pos h]
    omega

/-- Candidate-count adjustment of Luxon's `highOrderDiffs`: a field-difference
candidate is decremented when adding it overshoots `later`, with the extra
guard Luxon added for a second overshoot. -/
def adjustCount (cand : Int) (applyC : Int → Int) (later : Int) : Int :=
  if applyC cand > later then
    if applyC (cand - 1) > later then cand - 2 else cand - 1
  else cand

/-- Breakdown packing a calendar part together with an exact millisecond
remainder distributed over the fixed units. -/
def mkBreakdown (y m d rem : Int) : Breakdown :=
  let f := shiftMs rem
  ⟨y, m, d, f.1, f.2.1, f.2.2.1, f.2.2.2⟩

theorem plusDuration_mkBreakdown (base y m d rem : Int) :
    plusDuration base (mkBreakdown y m d rem) = plusCal base y m d + rem := by
  unfold plusDuration mkBreakdown
  rw [shiftMs_recombine]

/-- Luxon's `diff` of `earlier ≤ later` over the seven units: greedy years,
months and days counts (each computed from field differences and adjusted for
overshoot, with the cursor recomputed as `earlier.plus(results)`), then the
exact remainder shifted into the fixed units. -/
def diffPos (earlier later : Int) : Breakdown :=
  let yc := adjustCount (yearOf later - yearOf earlier)
    (fun c => plusCal earlier c 0 0) later
  let cur1 := plusCal earlier yc 0 0
  let mc := adjustCount (monthIdxOf later - monthIdxOf cur1)
    (fun c => plusCal earlier yc c 0) later
  let cur2 := plusCal earlier yc mc 0
  let dc := adjustCount (dayIndex later - dayIndex cur2)
    (fun c => plusCal earlier yc mc c) later
  mkBreakdown yc mc dc (later - plusCal earlier yc mc dc)

theorem diffPos_roundtrip (earlier later : Int) :
    plusDuration earlier (diffPos earlier later) = later := by
  unfold diffPos
  rw [plusDuration_mkBreakdown]
  omega

/-- Luxon's `compare.diff(base, units)`: the positive diff of the ordered pair,
negated when `base` is strictly later than `compare`. -/
def luxonDiff (base compare : Int) : Breakdown :=
  if compare < base then (diffPos compare base).neg
  else diffPos base compare

/-! ## Timestamps, zones and the environment

The spec's external collaborators (timezone validity checking, zone offsets,
the current-instant provider, `Math.sqrt`) are packaged in an environment
record and threaded through the embedding. -/

/-- External capabilities consumed by the engine.  Zones are fixed-offset:
`tzOffsetMin z` is the displacement of wall-clock time in zone `z` from UTC in
minutes.  `nowIso` is the canonical rendering of the instant captured by
`DateTime.now()` at request start.  `sqrtQ` models `Math.sqrt` (no claim
depends on its values). -/
structure Env where
  tzValid : String → Bool
  tzOffsetMin : String → Int
  nowIso : String
  sqrtQ : Rat → Rat

/-- A valid Luxon `DateTime`: an absolute instant in epoch milliseconds plus a
display zone name ("system" for the default zone, modelled as offset zero). -/
structure TimePoint where
  millis : Int
  zone : String
deriving Repr, DecidableEq

/-- A Luxon `DateTime` that may be invalid; the error carries
`invalidReason`. -/
abbrev DT := Except String TimePoint

/-- Display offset (minutes) of a time point in the model. -/
def Env.zoneOffset (env : Env) (z : String) : Int :=
  if z = "system" then 0 else env.tzOffsetMin z

/-! ## ISO-8601 parsing

Models `DateTime.fromISO` on the common subset the engine receives:
`YYYY-MM-DD` optionally followed by `THH:MM`, `:SS`, a fractional-second part,
and a `Z` / `±HH:MM` / `±HHMM` / `±HH` offset designator.  Anything else is
unparsable (Luxon's week-date and ordinal-date forms are outside the model). -/

/-- Numeric value of a decimal digit, if `c` is one. -/
def digitVal (c : Char) : Option Nat :=
  if c.isDigit then some (c.toNat - 48) else none

/-- Read exactly `n` decimal digits, returning their value and the rest. -/
def readDigits : Nat → List Char → Option (Nat × List Char)
  | 0, cs => some (0, cs)
  | n + 1, c :: cs => do
    let d ← digitVal c
    let (v, rest) ← readDigits n cs
    return (d * 10 ^ n + v, rest)
  | _ + 1, [] => none

/-- Read between one and three fractional-digit characters as milliseconds
(extra digits are not accepted by the model). -/
def readFrac : List Char → Option (Nat × List Char)
  | [] => none
  | c₁ :: rest₁ =>
    match digitVal c₁ with
    | none => none
    | some d₁ =>
      match rest₁ with
      | [] => some (d₁ * 100, [])
      | c₂ :: rest₂ =>
        match digitVal c₂ with
        | none => some (d₁ * 100, rest₁)
        | some d₂ =>
          match rest₂ with
          | [] => some (d₁ * 100 + d₂ * 10, [])
          | c₃ :: rest₃ =>
            match digitVal c₃ with
            | none => some (d₁ * 100 + d₂ * 10, rest₂)
            | some d₃ => some (d₁ * 100 + d₂ * 10 + d₃, rest₃)

/-- Read an offset designator; returns signed minutes. -/
def readOffset : List Char → Option Int
  | ['Z'] => some 0
  | sgn :: rest => do
    let s : Int ← if sgn = '+' then some 1 else if sgn = '-' then some (-1) else none
    let (hh, rest₁) ← readDigits 2 rest
    match rest₁ with
    | [] => return s * (hh : Int) * 60
    | ':' :: rest₂ => do
      let (mm, rest₃) ← readDigits 2 rest₂
      if rest₃ = [] then return s * ((hh : Int) * 60 + mm) else none
    | _ => do
      let (mm, rest₃) ← readDigits 2 rest₁
      if rest₃ = [] then return s * ((hh : Int) * 60 + mm) else none
  | [] => none

/-- Read the time-of-day part after the `T`, returning wall-clock milliseconds
and the unconsumed tail (the offset designator, if any). -/
def readTime (cs : List Char) : Option (Int × List Char) := do
  let (hh, r₁) ← readDigits 2 cs
  match r₁ with
  | ':' :: r₂ => do
    let (mi, r₃) ← readDigits 2 r₂
    if hh ≥ 24 || mi ≥ 60 then none else
    match r₃ with
    | ':' :: r₄ => do
      let (ss, r₅) ← readDigits 2 r₄
      if ss ≥ 60 then none else
      match r₅ with
      | '.' :: r₆ => do
        let (ms, r₇) ← readFrac r₆
        return ((hh : Int) * 3600000 + (mi : Int) * 60000 + (ss : Int) * 1000 + ms, r₇)
      | _ => return ((hh : Int) * 3600000 + (mi : Int) * 60000 + (ss : Int) * 1000, r₅)
    | _ => return ((hh : Int) * 3600000 + (mi : Int) * 60000, r₃)
  | _ => none

/-- Parse an ISO string into wall-clock milliseconds (date plus time of day,
offset not yet applied) and the explicit offset in minutes, if present. -/
def parseIso (s : String) : Option (Int × Option Int) := do
  let cs := s.toList
  let (y, r₁) ← readDigits 4 cs
  match r₁ with
  | '-' :: r₂ => do
    let (m, r₃) ← readDigits 2 r₂
    match r₃ with
    | '-' :: r₄ => do
      let (d, r₅) ← readDigits 2 r₄
      if m < 1 || m > 12 || d < 1 || (d : Int) > daysInMonth y m then none else
      let dayMs := daysFromCivil y m d * msPerDay
      match r₅ with
      | [] => return (dayMs, none)
      | 'T' :: r₆ => do
        let (tod, r₇) ← readTime r₆
        match r₇ with
        | [] => return (dayMs + tod, none)
        | tail => do
          let off ← readOffset tail
          return (dayMs + tod, some off)
      | _ => none
    | _ => none
  | _ => none

/-- Test of the handler's timezone-indicator regexp
`/[Z]$|[+-]\d{2}:?\d{2}$/` on a timestamp string. -/
def hasTzSuffix (s : String) : Bool :=
  let r := s.toList.reverse
  match r with
  | 'Z' :: _ => true
  | d₁ :: d₂ :: ':' :: d₃ :: d₄ :: sgn :: _ =>
    d₁.isDigit && d₂.isDigit && d₃.isDigit && d₄.isDigit &&
      (sgn = '+' || sgn = '-')
  | d₁ :: d₂ :: d₃ :: d₄ :: sgn :: _ =>
    d₁.isDigit && d₂.isDigit && d₃.isDigit && d₄.isDigit &&
      (sgn = '+' || sgn = '-')
  | _ => false

/-- Luxon `DateTime.fromISO` with no zone option: an explicit offset fixes the
instant, otherwise the string is wall-clock time in the default zone (offset
zero in the model); the result's display zone is the default zone. -/
def fromISO (s : String) : DT :=
  match parseIso s with
  | none => .error "unparsable"
  | some (localMs, some off) => .ok ⟨localMs - off * 60000, "system"⟩
  | some (localMs, none) => .ok ⟨localMs, "system"⟩

/-- Luxon `DateTime.fromISO` with a `zone` option: an explicit offset in the
string still fixes the instant, otherwise the string is wall-clock time in the
requested zone; an unknown zone yields an invalid DateTime. -/
def fromISOInZone (env : Env) (z : String) (s : String) : DT :=
  if env.tzValid z then
    match parseIso s with
    | none => .error "unparsable"
    | some (localMs, some off) => .ok ⟨localMs - off * 60000, z⟩
    | some (localMs, none) => .ok ⟨localMs - env.tzOffsetMin z * 60000, z⟩
  else .error "unsupported zone"

/-- Luxon `DateTime.setZone`: keeps the instant, changes the display zone;
invalid inputs stay invalid, unknown zones invalidate. -/
def setZone (env : Env) (z : String) (dt : DT) : DT :=
  match dt with
  | .error r => .error r
  | .ok tp => if env.tzValid z then .ok ⟨tp.millis, z⟩ else .error "unsupported zone"

/-- Left-pad the decimal rendering of a nonnegative integer to `w` digits. -/
def padNum (w : Nat) (n : Int) : String :=
  let s := toString n.natAbs
  let pad := w - s.length
  String.mk (List.replicate pad '0') ++ s

/-- Render an offset in minutes as `+HH:MM` / `-HH:MM`. -/
def offsetText (off : Int) : String :=
  let sgn := if off < 0 then "-" else "+"
  sgn ++ padNum 2 (|off| / 60) ++ ":" ++ padNum 2 (|off| % 60)

/-- Luxon `DateTime.toISO` in the model: wall-clock fields at the display
zone's offset followed by the offset designator. -/
def toIso (env : Env) (tp : TimePoint) : String :=
  let off := env.zoneOffset tp.zone
  let localMs := tp.millis + off * 60000
  let c := civilFromDays (localMs / msPerDay)
  let tod := localMs % msPerDay
  padNum 4 c.1 ++ "-" ++ padNum 2 c.2.1 ++ "-" ++ padNum 2 c.2.2 ++ "T" ++
    padNum 2 (tod / 3600000) ++ ":" ++ padNum 2 (tod % 3600000 / 60000) ++ ":" ++
    padNum 2 (tod % 60000 / 1000) ++ "." ++ padNum 3 (tod % 1000) ++
    offsetText off

/-- Render of an instant in the default zone; models
`DateTime.fromMillis(ms).toISO()`. -/
def isoSys (env : Env) (ms : Int) : String := toIso env ⟨ms, "system"⟩

/-- Render of a possibly fractional millisecond value (statistics means), the
instant being truncated to whole milliseconds. -/
def isoSysQ (env : Env) (q : Rat) : String := isoSys env q.floor

/-- ISO text of a possibly invalid DateTime with the handler's fallback. -/
def toIsoOr (env : Env) (fallback : String) (dt : DT) : String :=
  match dt with
  | .ok tp => toIso env tp
  | .error _ => fallback

/-! ## Request arguments (post-schema, the spec's stated precondition) -/

/-- The six operations accepted by the schema's `operation` enum. -/
inductive Op
  | add | subtract | diff | duration_between | stats | sort
deriving Repr, DecidableEq

/-- Operation name string, as echoed in responses. -/
def Op.str : Op → String
  | .add => "add"
  | .subtract => "subtract"
  | .diff => "diff"
  | .duration_between => "duration_between"
  | .stats => "stats"
  | .sort => "sort"

/-- The schema's `interaction_mode` enum. -/
inductive IMode
  | auto_detect | single_to_many | many_to_single | pairwise | cross_product
  | aggregate
deriving Repr, DecidableEq

/-- A `string | string[]` field that may be absent. -/
abbrev TimeField := Option (String ⊕ List String)

/-- JavaScript truthiness test used on `base_time`/`compare_time`: absent
fields and the empty string are falsy, arrays (even empty) are truthy. -/
def jsFalsy : TimeField → Bool
  | none => true
  | some (.inl s) => s = ""
  | some (.inr _) => false

/-- Validated arguments of the calculator (the Zod schema has accepted the
request; schema validation itself is out of scope per the spec). -/
structure Args where
  operation : Op
  interaction_mode : Option IMode := none
  base_time : TimeField := none
  compare_time : TimeField := none
  timezone : Option String := none
  compare_time_timezone : Option String := none
  years : Option Int := none
  months : Option Int := none
  days : Option Int := none
  hours : Option Int := none
  minutes : Option Int := none
  seconds : Option Int := none

/-! ## Input Normalizer: `safelyParseTimeArray` and its JSON-array fallback -/

/-- Skip JSON whitespace. -/
def skipWs : List Char → List Char
  | c :: rest =>
    if c = ' ' || c = '\t' || c = '\n' || c = '\r' then skipWs rest
    else c :: rest
  | [] => []

/-- Decode a single-character JSON escape (the model maps the common escapes;
`\uXXXX` escapes are outside the model). -/
def escChar (c : Char) : Char :=
  if c = 'n' then '\n' else if c = 't' then '\t' else if c = 'r' then '\r'
  else c

/-- Read the remainder of a JSON string literal (opening quote consumed). -/
def readJsonString (acc : List Char) : List Char → Option (String × List Char)
  | '\"' :: rest => some (String.mk acc.reverse, rest)
  | '\\' :: c :: rest => readJsonString (escChar c :: acc) rest
  | c :: rest => readJsonString (c :: acc) rest
  | [] => none

/-- Read the comma-separated string elements of a JSON array, up to and
including the closing bracket. -/
def readJsonElems (fuel : Nat) (cs : List Char) : Option (List String × List Char) :=
  match fuel with
  | 0 => none
  | fuel + 1 =>
    match skipWs cs with
    | '\"' :: rest => do
      let (s, r₁) ← readJsonString [] rest
      match skipWs r₁ with
      | ',' :: r₂ => do
        let (l, r₃) ← readJsonElems fuel r₂
        return (s :: l, r₃)
      | ']' :: r₂ => return ([s], r₂)
      | _ => none
    | _ => none

/-- Models `JSON.parse(s)` followed by the handler's
`Array.isArray(parsed) && parsed.every(item => typeof item === "string")`
check: succeeds exactly on a JSON array whose elements are all strings.
Arrays of non-strings, other JSON values and malformed input all produce
`none`, which the caller turns into the single-string fallback, just as the
source does. -/
def parseJsonStringArray (s : String) : Option (List String) :=
  match skipWs s.toList with
  | '[' :: rest =>
    match skipWs rest with
    | ']' :: r₁ => if skipWs r₁ = [] then some [] else none
    | _ => do
      let (l, r₁) ← readJsonElems (s.length + 1) rest
      if skipWs r₁ = [] then some l else none
  | _ => none

/-- The gate `times.trim().startsWith("[")`: the first non-whitespace
character of the string is an opening bracket. -/
def trimStartsWithBracket (s : String) : Bool :=
  match skipWs s.toList with
  | '[' :: _ => true
  | _ => false

/-- The Input Normalizer `safelyParseTimeArray`: absent (or, by JS
truthiness, empty-string) input defaults to the captured current instant;
arrays pass through; a string whose trimmed form starts with `[` is tried as
a JSON array of strings, any other string becomes a one-element sequence. -/
def safelyParseTimeArray (env : Env) (times : TimeField) : List String :=
  match times with
  | none => [env.nowIso]
  | some (.inl s) =>
    if s = "" then [env.nowIso]
    else if trimStartsWithBracket s then
      match parseJsonStringArray s with
      | some l => l
      | none => [s]
    else [s]
  | some (.inr l) => l

/-! ## Timestamp Resolver: `parseTimestamps` -/

/-- Resolution of one timestamp string under an optional zone, following the
handler's branching on the timezone-indicator regexp: a zone option applies to
suffix-free strings at parse time and as a display-zone conversion
otherwise. -/
def parseOne (env : Env) (tz : Option String) (s : String) : DT :=
  match tz with
  | some z =>
    if hasTzSuffix s then setZone env z (fromISO s) else fromISOInZone env z s
  | none => fromISO s

/-- The per-element invalid message `"<time> (<reason>)"` collected by
`parseTimestamps`. -/
def invalidEntry (env : Env) (tz : Option String) (s : String) : Option String :=
  match parseOne env tz s with
  | .error r => some (s ++ " (" ++ r ++ ")")
  | .ok _ => none

/-- `parseTimestamps`: normalizes, resolves every element, and either passes
invalid elements through (pairwise mode) or fails the batch with the collected
invalid entries. -/
def parseTimestamps (env : Env) (times : TimeField) (tz : Option String)
    (fieldName : String) (allowInvalidForPairwise : Bool) :
    Except String (List DT) :=
  let timesArray := safelyParseTimeArray env times
  let parsedTimes := timesArray.map (parseOne env tz)
  let invalidTimes := timesArray.filterMap (invalidEntry env tz)
  if allowInvalidForPairwise && !invalidTimes.isEmpty then .ok parsedTimes
  else if !invalidTimes.isEmpty then
    .error ("Invalid " ++ fieldName ++ " format(s): " ++
      String.intercalate ", " invalidTimes)
  else .ok parsedTimes

/-! ## Duration application (add/subtract executor) -/

/-- The sparse duration built from the request's unit fields. -/
structure DurationObject where
  years : Option Int := none
  months : Option Int := none
  days : Option Int := none
  hours : Option Int := none
  minutes : Option Int := none
  seconds : Option Int := none
deriving Repr, DecidableEq

/-- `Object.keys(duration).length === 0`: no unit field was provided. -/
def DurationObject.isEmpty (d : DurationObject) : Bool :=
  d.years.isNone && d.months.isNone && d.days.isNone && d.hours.isNone &&
    d.minutes.isNone && d.seconds.isNone

/-- The duration object the add/subtract branch assembles from the request. -/
def Args.duration (a : Args) : DurationObject :=
  ⟨a.years, a.months, a.days, a.hours, a.minutes, a.seconds⟩

/-- `timestamp.plus(duration)` / `timestamp.minus(duration)` on a valid time
point: merged clamped month addition, then days and fixed sub-day units; the
display zone is preserved.  (Luxon range overflow, ±100 million days, is
outside the model: results here are always valid.) -/
def applyDurTP (tp : TimePoint) (dur : DurationObject) (isAdd : Bool) : TimePoint :=
  let sgn : Int := if isAdd then 1 else -1
  ⟨plusCal tp.millis (sgn * dur.years.getD 0) (sgn * dur.months.getD 0)
      (sgn * dur.days.getD 0) +
    fixedMs (sgn * dur.hours.getD 0) (sgn * dur.minutes.getD 0)
      (sgn * dur.seconds.getD 0) 0,
   tp.zone⟩

/-- The loop of `applyDuration`, threading the element index: invalid inputs
contribute an indexed error message and are skipped, valid ones contribute
their transformed time point. -/
def applyDurationGo (dur : DurationObject) (isAdd : Bool) :
    Nat → List DT → List String × List TimePoint
  | _, [] => ([], [])
  | i, t :: rest =>
    let tail := applyDurationGo dur isAdd (i + 1) rest
    match t with
    | .error r =>
      (("Timestamp at index " ++ toString i ++ " is invalid: " ++ r) :: tail.1,
       tail.2)
    | .ok tp => (tail.1, applyDurTP tp dur isAdd :: tail.2)

/-- `applyDuration`: applies the duration to every timestamp, collecting
per-index failure messages for invalid inputs and failing with all of them
joined by `"; "`, otherwise returning the transformed list. -/
def applyDuration (ts : List DT) (dur : DurationObject) (isAdd : Bool) :
    Except String (List TimePoint) :=
  let pair := applyDurationGo dur isAdd 0 ts
  if !pair.1.isEmpty then .error (String.intercalate "; " pair.1)
  else .ok pair.2

/-! ## Response shapes -/

/-- The `{count, results, timezone}` envelope of `formatResults`. -/
structure ResultFormat where
  count : Nat
  results : List String
  timezone : String
deriving Repr, DecidableEq

/-- `formatResults` on a list of result time points. -/
def formatRF (env : Env) (ts : List TimePoint) : ResultFormat :=
  ⟨ts.length, ts.map (toIso env), ((ts.head?.map TimePoint.zone).getD "unknown")⟩

/-- The five-field result of the `diff` operation. -/
structure DiffFields where
  days : Int
  hours : Int
  minutes : Int
  seconds : Int
  milliseconds : Int
  total_milliseconds : Int
deriving Repr, DecidableEq

/-- The detailed result of the `duration_between` operation. -/
structure DurFields where
  years : Int
  months : Int
  days : Int
  hours : Int
  minutes : Int
  seconds : Int
  milliseconds : Int
  total_milliseconds : Int
  human_readable : String
deriving Repr, DecidableEq

/-- Payload of one diff-family calculation. -/
inductive DiffOut
  | fiveF (f : DiffFields)
  | breakdown (f : DurFields)
deriving Repr, DecidableEq

/-- One slot of a diff-family batch: a success payload or the
`{error, index, base_time, compare_time}` record. -/
inductive PairItem
  | ok (v : DiffOut)
  | err (error : String) (index : Nat) (base_time : String) (compare_time : String)
deriving Repr, DecidableEq

/-! ## Statistics and sort result shapes -/

/-- `timestamp_analysis` of the stats operation. -/
structure TimestampAnalysis where
  earliest : String
  latest : String
  total_span_ms : Int
  total_span_human : String
  mean_timestamp : String
  median_timestamp : String
  std_deviation_ms : Int
deriving Repr, DecidableEq

/-- `interval_analysis` of the stats operation. -/
structure IntervalAnalysis where
  interval_count : Nat
  mean_interval_ms : Int
  mean_interval_human : String
  min_interval_ms : Int
  max_interval_ms : Int
  total_intervals_span_ms : Int
deriving Repr, DecidableEq

/-- `duration_analysis` of the stats operation. -/
structure DurationAnalysis where
  pair_count : Nat
  min_duration_ms : Int
  min_duration_human : String
  max_duration_ms : Int
  max_duration_human : String
  mean_duration_ms : Int
  mean_duration_human : String
  median_duration_ms : Int
  median_duration_human : String
  std_deviation_ms : Int
  total_duration_ms : Int
deriving Repr, DecidableEq

/-- The stats operation result. -/
structure StatsResult where
  base_time_count : Nat
  compare_time_count : Nat
  timestamp_analysis : Option TimestampAnalysis := none
  interval_analysis : Option IntervalAnalysis := none
  duration_analysis : Option DurationAnalysis := none
deriving Repr, DecidableEq

/-- The sort operation result. -/
structure SortResult where
  input_count : Nat
  sorted_original_format : List String
  sorted_iso_format : List String
  sorted_timestamps : List Int
  earliest_time : String
  latest_time : String
  total_span_ms : Int
  total_span_human : String
  timezone_used : String
deriving Repr, DecidableEq

/-- The `result` field of a successful calculation. -/
inductive Payload
  | single (s : String)
  | batch (rf : ResultFormat)
  | addCompare (base_results : ResultFormat) (compare_results : ResultFormat)
  | diffOne (item : PairItem)
  | diffBatch (count : Nat) (results : List PairItem) (interaction_mode : String)
  | statsOut (s : StatsResult)
  | sortOut (s : SortResult)
deriving Repr, DecidableEq

/-- A successful calculation result (the echoed-input and debug-metadata
blocks, which no claim concerns, are not modelled). -/
structure CalcResult where
  operation : String
  interaction_mode : String
  result : Payload
  result_timezone : Option String := none
deriving Repr, DecidableEq

/-- A handler return value: either the structured `createErrorResponse` shape
(`success:false` with the operation name and error text) or a structured
success. -/
inductive Response
  | errorResp (operation : String) (error : String)
  | success (r : CalcResult)
deriving Repr, DecidableEq

/-! ## Interaction Planner: `planOperations` -/

/-- The fixed operation-count ceiling `MAX_OPERATIONS`. -/
def MAX_OPERATIONS : Nat := 10000

/-- The planner's ceiling-violation message. -/
def planCountMsg (n : Nat) (mode : String) : String :=
  "Operation count (" ++ toString n ++
    ") exceeds maximum allowed (10000) for interaction mode '" ++ mode ++ "'"

/-- The resolved `OperationPlan` (the second revision dropped the
`operation_count` field; the ceiling is checked before the plan is built). -/
structure Plan where
  interaction_mode : String
  base_times : List String
  compare_times : List String
deriving Repr, DecidableEq

/-- Final ceiling check of `planOperations` applied in every branch. -/
def planFinish (mode : String) (count : Nat) (b c : List String) :
    Except String Plan :=
  if count > MAX_OPERATIONS then .error (planCountMsg count mode)
  else .ok ⟨mode, b, c⟩

/-- `planOperations`: normalizes the two fields (a JS-falsy field contributes
an empty sequence here), resolves `auto_detect` by the cardinality table,
enforces the explicit modes' cardinality preconditions, truncates pairwise and
aggregate batches to the shorter length, and rejects plans over the
ceiling. -/
def planOperations (env : Env) (base_time compare_time : TimeField)
    (interaction_mode : IMode) : Except String Plan :=
  let baseTimes := if jsFalsy base_time then [] else safelyParseTimeArray env base_time
  let compareTimes := if jsFalsy compare_time then [] else safelyParseTimeArray env compare_time
  match interaction_mode with
  | .auto_detect =>
    if baseTimes.length ≤ 1 && compareTimes.length ≤ 1 then
      planFinish "single_to_single" (max baseTimes.length compareTimes.length)
        baseTimes compareTimes
    else if baseTimes.length = 1 && compareTimes.length > 1 then
      planFinish "single_to_many" compareTimes.length baseTimes compareTimes
    else if baseTimes.length > 1 && compareTimes.length ≤ 1 then
      planFinish "many_to_single" baseTimes.length baseTimes compareTimes
    else
      let minLength := min baseTimes.length compareTimes.length
      planFinish "pairwise" minLength (baseTimes.take minLength)
        (compareTimes.take minLength)
  | .single_to_many =>
    if baseTimes.length ≠ 1 || compareTimes.length ≤ 1 then
      .error "single_to_many mode requires exactly 1 base_time and multiple compare_times"
    else planFinish "single_to_many" compareTimes.length baseTimes compareTimes
  | .many_to_single =>
    if baseTimes.length ≤ 1 || compareTimes.length ≠ 1 then
      .error "many_to_single mode requires multiple base_times and exactly 1 compare_time"
    else planFinish "many_to_single" baseTimes.length baseTimes compareTimes
  | .pairwise =>
    if baseTimes.length = 0 || compareTimes.length = 0 then
      .error "pairwise mode requires both base_time and compare_time arrays"
    else
      let minLength := min baseTimes.length compareTimes.length
      planFinish "pairwise" minLength (baseTimes.take minLength)
        (compareTimes.take minLength)
  | .cross_product =>
    if baseTimes.length = 0 || compareTimes.length = 0 then
      .error "cross_product mode requires both base_time and compare_time arrays"
    else planFinish "cross_product" (baseTimes.length * compareTimes.length)
      baseTimes compareTimes
  | .aggregate =>
    let minLength := min baseTimes.length compareTimes.length
    planFinish "aggregate" minLength (baseTimes.take minLength)
      (compareTimes.take minLength)

/-! ## Human-readable renderings -/

/-- `formatDuration` from `date-utils.ts`: cascaded days/hours/minutes/seconds
of the magnitude, non-zero units joined with `", "`, `"0 seconds"` when all
four are zero (never signed), and a leading minus sign otherwise for negative
input.  Milliseconds are never rendered. -/
def formatDuration (milliseconds : Int) : String :=
  let absMs := |milliseconds|
  let isNegative := milliseconds < 0
  let days := absMs / (1000 * 60 * 60 * 24)
  let hours := absMs % (1000 * 60 * 60 * 24) / (1000 * 60 * 60)
  let minutes := absMs % (1000 * 60 * 60) / (1000 * 60)
  let seconds := absMs % (1000 * 60) / 1000
  let parts : List String :=
    (if days > 0 then [toString days ++ " day" ++ (if days ≠ 1 then "s" else "")] else []) ++
    (if hours > 0 then [toString hours ++ " hour" ++ (if hours ≠ 1 then "s" else "")] else []) ++
    (if minutes > 0 then [toString minutes ++ " minute" ++ (if minutes ≠ 1 then "s" else "")] else []) ++
    (if seconds > 0 then [toString seconds ++ " second" ++ (if seconds ≠ 1 then "s" else "")] else [])
  if parts.isEmpty then "0 seconds"
  else
    let result := String.intercalate ", " parts
    if isNegative then "-" ++ result else result

/-- One unit of Luxon's `Duration.toHuman`: the count followed by the unit
name, pluralized exactly when the count is not one. -/
def humanUnit (n : Int) (u : String) : String :=
  toString n ++ " " ++ u ++ (if n = 1 then "" else "s")

/-- Luxon's `Duration.toHuman` on the seven-unit diff duration: every unit is
rendered (zeros included) in descending order, joined by `", "`. -/
def toHuman (b : Breakdown) : String :=
  String.intercalate ", "
    [humanUnit b.years "year", humanUnit b.months "month", humanUnit b.days "day",
     humanUnit b.hours "hour", humanUnit b.minutes "minute",
     humanUnit b.seconds "second", humanUnit b.milliseconds "millisecond"]

/-! ## Diff-family executors -/

/-- The `diffOperation` closure: the seven-unit Luxon diff of the pair plus
the exact signed total (`compareTime.diff(baseTime).as("milliseconds")`).
The source applies `Math.floor` to each component; every component is already
an integer, so the floors are identities in the model. -/
def diffOpCore (isDiff : Bool) (b c : TimePoint) : DiffOut :=
  let br := luxonDiff b.millis c.millis
  let totalMs := c.millis - b.millis
  if isDiff then
    .fiveF ⟨br.days, br.hours, br.minutes, br.seconds, br.milliseconds, totalMs⟩
  else
    .breakdown ⟨br.years, br.months, br.days, br.hours, br.minutes, br.seconds,
      br.milliseconds, totalMs, toHuman br⟩

/-- Application of the diff operation inside the non-pairwise executors: those
batches were validated fail-fast, so the invalid fallback is unreachable
there. -/
def liftPair (isDiff : Bool) (b c : DT) : PairItem :=
  match b, c with
  | .ok bp, .ok cp => .ok (diffOpCore isDiff bp cp)
  | _, _ => .err "Invalid DateTime arithmetic" 0 "" ""

/-- The slot produced by `_executePairwise` at index `i`: per-pair validity
checks inside a try/catch turn an invalid side into the
`{error, index, base_time, compare_time}` record without touching other
slots. -/
def pairItemAt (env : Env) (isDiff : Bool) (bs cs : List DT) (i : Nat) : PairItem :=
  match bs[i]?, cs[i]? with
  | some b, some c =>
    match b with
    | .error rb =>
      .err ("Invalid base_time at index " ++ toString i ++ ": " ++ rb) i
        (toIsoOr env "Invalid DateTime" b) (toIsoOr env "Invalid DateTime" c)
    | .ok _ =>
      match c with
      | .error rc =>
        .err ("Invalid compare_time at index " ++ toString i ++ ": " ++ rc) i
          (toIsoOr env "Invalid DateTime" b) (toIsoOr env "Invalid DateTime" c)
      | .ok _ => liftPair isDiff b c
  | _, _ => .err "Missing timestamp" i "undefined" "undefined"

/-- `_executePairwise`: one result per index up to the shorter length. -/
def executePairwise (env : Env) (isDiff : Bool) (bs cs : List DT) : List PairItem :=
  (List.range (min bs.length cs.length)).map (pairItemAt env isDiff bs cs)

/-- `_executeSingleToMany`. -/
def executeSingleToMany (isDiff : Bool) (bs cs : List DT) : List PairItem :=
  match bs with
  | [] => []
  | b :: _ => cs.map (liftPair isDiff b)

/-- `_executeManyToSingle`. -/
def executeManyToSingle (isDiff : Bool) (bs cs : List DT) : List PairItem :=
  match cs with
  | [] => []
  | c :: _ => bs.map (fun b => liftPair isDiff b c)

/-- `_executeCrossProduct`: base-major iteration over all combinations. -/
def executeCrossProduct (isDiff : Bool) (bs cs : List DT) : List PairItem :=
  bs.flatMap (fun b => cs.map (liftPair isDiff b))

/-! ## Statistics helpers -/

/-- JavaScript `Math.round`: half-up rounding, `floor(x + 1/2)`. -/
def jsRound (q : Rat) : Int := (q + 1/2).floor

/-- Arithmetic mean as a JS number. -/
def meanQ (l : List Int) : Rat := (l.sum : Rat) / (l.length : Rat)

/-- Population variance as a JS number. -/
def varianceQ (l : List Int) : Rat :=
  ((l.map fun v => ((v : Rat) - meanQ l) ^ 2).sum) / (l.length : Rat)

/-- The handler's median: average of the two middle values of the sorted list
when the count is even (absent indices defaulting to 0, as in the source's
`?? 0`). -/
def medianQ (sorted : List Int) : Rat :=
  let mid := sorted.length / 2
  if sorted.length % 2 = 0 then
    (((sorted[mid - 1]?).getD 0 : Rat) + ((sorted[mid]?).getD 0 : Rat)) / 2
  else ((sorted[mid]?).getD 0 : Rat)

/-- Stable insertion into an ascending list (equal keys keep arrival order). -/
def insertInt (x : Int) : List Int → List Int
  | [] => [x]
  | y :: ys => if y ≤ x then y :: insertInt x ys else x :: y :: ys

/-- `array.sort((a, b) => a - b)`: stable ascending sort. -/
def sortInts (l : List Int) : List Int :=
  l.foldl (fun acc x => insertInt x acc) []

/-- `Math.min(...l)` over a nonempty list (0 for the empty list, unreachable
in the guarded uses). -/
def listMinD : List Int → Int
  | [] => 0
  | x :: xs => xs.foldl min x

/-- `Math.max(...l)` over a nonempty list. -/
def listMaxD : List Int → Int
  | [] => 0
  | x :: xs => xs.foldl max x

/-- The stats branch's base-time parse loop: resolves each string and throws
`"Invalid time format in base_time: <s>"` at the first invalid one, otherwise
yields the epoch milliseconds in order. -/
def statsParseBase (env : Env) (tz : Option String) :
    List String → Except String (List Int)
  | [] => .ok []
  | s :: rest =>
    match parseOne env tz s with
    | .error _ => .error ("Invalid time format in base_time: " ++ s)
    | .ok tp => (statsParseBase env tz rest).map (fun l => tp.millis :: l)

/-- The duration-pair loop of the stats branch: empty strings on either side
skip the index, an unparsable side throws with the index, and each surviving
pair contributes `compare[i] − base[i]` in milliseconds. -/
def durPairs (env : Env) (ptz ctz : Option String) :
    List (Nat × String × String) → Except String (List Int)
  | [] => .ok []
  | (i, bs, cs) :: rest =>
    if bs = "" || cs = "" then durPairs env ptz ctz rest
    else
      match parseOne env ptz bs, parseOne env ctz cs with
      | .error _, _ =>
        .error ("Invalid base_time format at index " ++ toString i ++ ": " ++ bs)
      | .ok _, .error _ =>
        .error ("Invalid compare_time format at index " ++ toString i ++ ": " ++ cs)
      | .ok b, .ok c => (durPairs env ptz ctz rest).map (fun l => (c.millis - b.millis) :: l)

/-- Timestamp-only analysis of the stats branch. -/
def timestampAnalysisOf (env : Env) (baseTimestamps : List Int) :
    Except String (TimestampAnalysis × Option IntervalAnalysis) :=
  match baseTimestamps with
  | [] => .error "No valid timestamps found in base_time"
  | _ =>
    let sorted := sortInts baseTimestamps
    let mn := (sorted.head?).getD 0
    let mx := (sorted.getLast?).getD 0
    let mean := meanQ baseTimestamps
    let median := medianQ sorted
    let stdDev := env.sqrtQ (varianceQ baseTimestamps)
    let intervals := (sorted.zip sorted.tail).map fun p => p.2 - p.1
    let ta : TimestampAnalysis :=
      { earliest := isoSys env mn
        latest := isoSys env mx
        total_span_ms := mx - mn
        total_span_human := formatDuration (mx - mn)
        mean_timestamp := isoSysQ env mean
        median_timestamp := isoSysQ env median
        std_deviation_ms := jsRound stdDev }
    let ia : Option IntervalAnalysis :=
      if intervals.isEmpty then none
      else some
        { interval_count := intervals.length
          mean_interval_ms := jsRound (meanQ intervals)
          mean_interval_human := formatDuration (jsRound (meanQ intervals))
          min_interval_ms := listMinD intervals
          max_interval_ms := listMaxD intervals
          total_intervals_span_ms := intervals.sum }
    .ok (ta, ia)

/-- Duration-pair analysis of the stats branch. -/
def durationAnalysisOf (env : Env) (pairCount : Nat) (durations : List Int) :
    Except String DurationAnalysis :=
  match durations with
  | [] => .error "No valid duration pairs found"
  | _ =>
    let sortedDurations := sortInts durations
    let minDuration := (sortedDurations.head?).getD 0
    let maxDuration := (sortedDurations.getLast?).getD 0
    let meanDuration := meanQ durations
    let medianDuration := medianQ sortedDurations
    let stdDevDuration := env.sqrtQ (varianceQ durations)
    .ok
      { pair_count := pairCount
        min_duration_ms := minDuration
        min_duration_human := formatDuration minDuration
        max_duration_ms := maxDuration
        max_duration_human := formatDuration maxDuration
        mean_duration_ms := jsRound meanDuration
        mean_duration_human := formatDuration (jsRound meanDuration)
        median_duration_ms := jsRound medianDuration
        median_duration_human := formatDuration (jsRound medianDuration)
        std_deviation_ms := jsRound stdDevDuration
        total_duration_ms := durations.sum }

/-- The `stats` case of the handler.  Its failure paths use bare `throw`
(modelled as `Except.error`), unlike the other branches. -/
def statsBranch (env : Env) (a : Args) (modeStr : String) :
    Except String Response :=
  if jsFalsy a.base_time then .error "stats operation requires base_time"
  else
    let baseTimes := safelyParseTimeArray env a.base_time
    if baseTimes.length < 2 then
      .error "stats operation requires at least 2 timestamps"
    else
      let compareTimes : Option (List String) :=
        if jsFalsy a.compare_time then none
        else some (safelyParseTimeArray env a.compare_time)
      match statsParseBase env a.timezone baseTimes with
      | .error e => .error e
      | .ok baseTimestamps =>
        let counts : StatsResult :=
          { base_time_count := baseTimes.length
            compare_time_count := (compareTimes.map List.length).getD 0 }
        let timestampOnly :=
          match compareTimes with
          | none => true
          | some cts => cts.isEmpty
        if timestampOnly then
          match timestampAnalysisOf env baseTimestamps with
          | .error e => .error e
          | .ok (ta, ia) =>
            .ok (.success ⟨"stats", modeStr,
              .statsOut { counts with
                          timestamp_analysis := some ta
                          interval_analysis := ia }, none⟩)
        else
          let cts := compareTimes.getD []
          let minLength := min baseTimes.length cts.length
          let compareTimezone := a.compare_time_timezone.or a.timezone
          match durPairs env a.timezone compareTimezone
            ((baseTimes.zip cts).enum) with
          | .error e => .error e
          | .ok durations =>
            match durationAnalysisOf env minLength durations with
            | .error e => .error e
            | .ok da =>
              .ok (.success ⟨"stats", modeStr,
                .statsOut { counts with duration_analysis := some da }, none⟩)

/-! ## Sort branch -/

/-- A sortable element of the sort branch. -/
structure SortItem where
  original : String
  timestamp : Int
  parsed : TimePoint
deriving Repr, DecidableEq

/-- Stable insertion by timestamp. -/
def insertItem (x : SortItem) : List SortItem → List SortItem
  | [] => [x]
  | y :: ys => if y.timestamp ≤ x.timestamp then y :: insertItem x ys else x :: y :: ys

/-- `sortableItems.sort((a, b) => a.timestamp - b.timestamp)`: stable
chronological sort. -/
def sortItems (l : List SortItem) : List SortItem :=
  l.foldl (fun acc x => insertItem x acc) []

/-- The sort branch's parse loop, throwing
`"Invalid time format in base_time: <s> - <reason>"` at the first invalid
timestamp. -/
def sortParse (env : Env) (tz : Option String) :
    List String → Except String (List SortItem)
  | [] => .ok []
  | s :: rest =>
    match parseOne env tz s with
    | .error r => .error ("Invalid time format in base_time: " ++ s ++ " - " ++ r)
    | .ok tp => (sortParse env tz rest).map (fun l => ⟨s, tp.millis, tp⟩ :: l)

/-- The `sort` case of the handler; like `stats`, its failure paths use bare
`throw`. -/
def sortBranch (env : Env) (a : Args) (modeStr : String) :
    Except String Response :=
  if jsFalsy a.base_time then .error "sort operation requires base_time"
  else
    let baseTimes := safelyParseTimeArray env a.base_time
    if baseTimes.length < 2 then
      .error "sort operation requires at least 2 timestamps"
    else
      match sortParse env a.timezone baseTimes with
      | .error e => .error e
      | .ok items =>
        let sortedItems := sortItems items
        match sortedItems.head?, sortedItems.getLast? with
        | some earliest, some latest =>
          let totalSpan := latest.timestamp - earliest.timestamp
          .ok (.success ⟨"sort", modeStr,
            .sortOut
              { input_count := baseTimes.length
                sorted_original_format := sortedItems.map SortItem.original
                sorted_iso_format := sortedItems.map fun it => toIso env it.parsed
                sorted_timestamps := sortedItems.map SortItem.timestamp
                earliest_time := toIso env earliest.parsed
                latest_time := toIso env latest.parsed
                total_span_ms := totalSpan
                total_span_human := formatDuration totalSpan
                timezone_used := a.timezone.getD "system" }, none⟩)
        | _, _ => .error "Invalid sortable items for metadata calculation"

/-! ## Add/subtract and diff branches, and the handler -/

/-- `formatResults`: the bare ISO string for single-result calls when asked,
the `{count, results, timezone}` envelope otherwise. -/
def formatResults (env : Env) (ts : List TimePoint) (returnSingle : Bool) : Payload :=
  if returnSingle && ts.length == 1 then .single (((ts.map (toIso env)).head?).getD "")
  else .batch (formatRF env ts)

/-- The add/subtract case: its ceiling check sums both sequence lengths, then
the duration is validated for emptiness, applied to the base sequence, and,
when a compare sequence is present, parsed strictly and applied there too. -/
def addCountMsg (n : Nat) (opn : String) : String :=
  "Operation count (" ++ toString n ++
    ") exceeds maximum allowed (10000) for " ++ opn ++ " operation"

def addSubBranch (env : Env) (a : Args) (plan : Plan) (baseTimes : List DT) :
    Response :=
  let opn := a.operation.str
  let isAdd := a.operation == Op.add
  let operationCount := baseTimes.length +
    (if jsFalsy a.compare_time then 0
     else (safelyParseTimeArray env a.compare_time).length)
  if operationCount > MAX_OPERATIONS then
    .errorResp opn (addCountMsg operationCount opn)
  else
    let duration := a.duration
    if duration.isEmpty then
      .errorResp opn ("No duration specified for " ++ opn ++ " operation")
    else
      match applyDuration baseTimes duration isAdd with
      | .error e => .errorResp opn e
      | .ok baseResults =>
        if jsFalsy a.compare_time then
          if baseTimes.length == 1 then
            .success ⟨opn, plan.interaction_mode, formatResults env baseResults true,
              some ((baseResults.head?.map TimePoint.zone).getD "unknown")⟩
          else
            .success ⟨opn, plan.interaction_mode, formatResults env baseResults false,
              none⟩
        else
          match parseTimestamps env a.compare_time
            (a.compare_time_timezone.or a.timezone) "compare_time" false with
          | .error e => .errorResp opn e
          | .ok compareTimes =>
            match applyDuration compareTimes duration isAdd with
            | .error e => .errorResp opn e
            | .ok compareResults =>
              .success ⟨opn, plan.interaction_mode,
                .addCompare (formatRF env baseResults) (formatRF env compareResults),
                none⟩

/-- The diff/duration_between case: requires a compare sequence, parses it
(with pass-through of invalid elements exactly when the plan is pairwise),
dispatches on the planned interaction mode (unknown modes fall back to
pairwise), and unwraps single results. -/
def diffBranch (env : Env) (a : Args) (plan : Plan) (baseTimes : List DT)
    (isPairwise : Bool) : Response :=
  let opn := a.operation.str
  if jsFalsy a.compare_time then
    .errorResp opn ("compare_time is required for " ++ opn ++ " operation")
  else
    let compareTimezone := a.compare_time_timezone.or a.timezone
    match parseTimestamps env a.compare_time compareTimezone "compare_time"
      isPairwise with
    | .error e => .errorResp opn e
    | .ok compareTimes =>
      let isDiff := a.operation == Op.diff
      let diffResults :=
        if plan.interaction_mode == "single_to_single" then
          match baseTimes, compareTimes with
          | b :: _, c :: _ => [liftPair isDiff b c]
          | _, _ => []
        else if plan.interaction_mode == "single_to_many" then
          executeSingleToMany isDiff baseTimes compareTimes
        else if plan.interaction_mode == "many_to_single" then
          executeManyToSingle isDiff baseTimes compareTimes
        else if plan.interaction_mode == "pairwise" then
          executePairwise env isDiff baseTimes compareTimes
        else if plan.interaction_mode == "cross_product" then
          executeCrossProduct isDiff baseTimes compareTimes
        else
          executePairwise env isDiff baseTimes compareTimes
      match diffResults with
      | [r] => .success ⟨opn, plan.interaction_mode, .diffOne r, none⟩
      | rs => .success ⟨opn, plan.interaction_mode,
          .diffBatch rs.length rs plan.interaction_mode, none⟩

/-- The single entry point `handleTimeCalculator` (post-schema): plans,
resolves the base sequence, and dispatches to the operation branch.  A
`.ok` value is what the caller receives (structured success or structured
error); an `.error` value is an exception escaping the handler as a promise
rejection, which only the stats and sort branches can produce. -/
def handleTimeCalculator (env : Env) (a : Args) : Except String Response :=
  match planOperations env a.base_time a.compare_time
    (a.interaction_mode.getD .auto_detect) with
  | .error e => .ok (.errorResp a.operation.str e)
  | .ok plan =>
    let isPairwise := plan.interaction_mode == "pairwise"
    match parseTimestamps env a.base_time a.timezone "base_time" isPairwise with
    | .error e => .ok (.errorResp a.operation.str e)
    | .ok baseTimes =>
      match a.operation with
      | .add | .subtract => .ok (addSubBranch env a plan baseTimes)
      | .diff | .duration_between => .ok (diffBranch env a plan baseTimes isPairwise)
      | .stats => statsBranch env a plan.interaction_mode
      | .sort => sortBranch env a plan.interaction_mode

/-! ## Projections and concrete instances used by the claim theorems -/

/-- The `count` of a structured success whose result is the
`{count, results, timezone}` envelope. -/
def successCount : Except String Response → Option Nat
  | .ok (.success r) =>
    match r.result with
    | .batch rf => some rf.count
    | _ => none
  | _ => none

/-- The numeric outputs of a successful sort: the sorted millisecond values
and the total span. -/
def sortNumerics : Except String Response → Option (List Int × Int)
  | .ok (.success r) =>
    match r.result with
    | .sortOut s => some (s.sorted_timestamps, s.total_span_ms)
    | _ => none
  | _ => none

/-- Recombination of the five fields the `diff` operation returns, as fixed
milliseconds. -/
def fiveFieldMs (f : DiffFields) : Int :=
  f.days * 86400000 + fixedMs f.hours f.minutes f.seconds f.milliseconds

/-- Concrete environment for the closed theorems: two known fixed-offset
zones, a captured current instant, and the identity for `Math.sqrt` (no
evaluated claim inspects a square root). -/
def envC : Env :=
  ⟨fun z => z = "UTC" || z = "America/New_York",
   fun z => if z = "America/New_York" then -300 else 0,
   "2024-06-15T12:00:00.000+00:00",
   fun q => q⟩

/-! ## Support lemmas -/

theorem isOk_exists {ε α : Type} (e : Except ε α) (h : e.isOk = true) :
    ∃ a, e = .ok a := by
  cases e with
  | error r => simp [Except.isOk, Except.toBool] at h
  | ok a => exact ⟨a, rfl⟩

theorem parseTimestamps_allValid (env : Env) (times : TimeField)
    (tz : Option String) (fn : String) (pw : Bool)
    (h : ∀ s ∈ safelyParseTimeArray env times, (parseOne env tz s).isOk = true) :
    parseTimestamps env times tz fn pw =
      .ok ((safelyParseTimeArray env times).map (parseOne env tz)) := by
  have hnil : (safelyParseTimeArray env times).filterMap (invalidEntry env tz) = [] := by
    rw [List.filterMap_eq_nil_iff]
    intro s hs
    unfold invalidEntry
    rcases isOk_exists _ (h s hs) with ⟨tp, htp⟩
    rw [htp]
  simp [parseTimestamps, hnil]

theorem applyDurationGo_allValid (dur : DurationObject) (isAdd : Bool) :
    ∀ (ts : List DT) (i : Nat), (∀ t ∈ ts, t.isOk = true) →
      (applyDurationGo dur isAdd i ts).1 = [] ∧
        (applyDurationGo dur isAdd i ts).2.length = ts.length := by
  intro ts
  induction ts with
  | nil => intro i _; simp [applyDurationGo]
  | cons t rest ih =>
    intro i h
    rcases isOk_exists t (h t (by simp)) with ⟨tp, rfl⟩
    have htail := ih (i + 1) (fun u hu => h u (by simp [hu]))
    simp [applyDurationGo, htail.1, htail.2]

theorem applyDuration_allValid (ts : List DT) (dur : DurationObject)
    (isAdd : Bool) (h : ∀ t ∈ ts, t.isOk = true) :
    ∃ rs : List TimePoint, applyDuration ts dur isAdd = .ok rs ∧
      rs.length = ts.length := by
  obtain ⟨h1, h2⟩ := applyDurationGo_allValid dur isAdd ts 0 h
  exact ⟨(applyDurationGo dur isAdd 0 ts).2, by simp [applyDuration, h1], h2⟩

theorem planFinish_over (mode : String) (count : Nat) (b c : List String)
    (h : count > MAX_OPERATIONS) :
    planFinish mode count b c = .error (planCountMsg count mode) := by
  unfold planFinish
  rw [if_pos h]

theorem handle_plan_error (env : Env) (a : Args) (e : String)
    (h : planOperations env a.base_time a.compare_time
      (a.interaction_mode.getD .auto_detect) = .error e) :
    handleTimeCalculator env a = .ok (.errorResp a.operation.str e) := by
  simp only [handleTimeCalculator]
  rw [h]

/-! ## Claim C1 -/

/-- C1: the claim says `handleTimeCalculator` never throws or rejects and
that a stats request with fewer than 2 timestamps still yields a typed error
response.  The code is wrong: the stats branch raises a bare `throw` with no
enclosing try/catch (unlike every other branch, which returns
`createErrorResponse`), so on `{operation: "stats", base_time: ["2024-01-01T00:00:00Z"]}`
the promise rejects with this message instead of resolving to a structured
error. -/
theorem claim1_stats_throws_uncaught :
    handleTimeCalculator envC
      { operation := .stats, base_time := some (.inr ["2024-01-01T00:00:00Z"]) } =
      .error "stats operation requires at least 2 timestamps" := by
  rfl

/-! ## Claim C5 -/

/-- C5: the claim says the five returned diff fields decompose the *entire*
difference so that recombining them reproduces the full delta.  The code is
wrong: it requests the seven-unit Luxon diff (years and months included) and
then returns only days…milliseconds, silently dropping the years/months
buckets, contradicting its own comment ("Decomposed time units that add up to
the total time difference").  For 2024-01-01T00:00:00Z → 2024-03-01T00:00:00Z
the two whole months land in the dropped buckets: every returned field is 0
while `total_milliseconds` is the correct 5184000000. -/
theorem claim5_diff_fields_not_full_delta :
    handleTimeCalculator envC
      { operation := .diff, base_time := some (.inl "2024-01-01T00:00:00Z"),
        compare_time := some (.inl "2024-03-01T00:00:00Z") } =
      .ok (.success ⟨"diff", "single_to_single",
        .diffOne (.ok (.fiveF ⟨0, 0, 0, 0, 0, 5184000000⟩)), none⟩) ∧
    fiveFieldMs ⟨0, 0, 0, 0, 0, 5184000000⟩ ≠ (5184000000 : Int) := by
  exact ⟨by rfl, by decide⟩

/-! ## Claim C2 -/

/-- C2: the spec's partial-failure-isolation batch.  The auto-detected
pairwise diff over `base=["2024-01-01T10:00:00Z","invalid","2024-01-03T10:00:00Z"]`
and `compare=["2024-01-01T12:00:00Z","2024-01-02T12:00:00Z","2024-01-03T14:00:00Z"]`
returns exactly 3 results in input order: index 1 is the
`{error, index, base_time, compare_time}` record for its pair (the invalid
side echoed with the `"Invalid DateTime"` placeholder, the valid side
re-rendered in the default zone), indices 0 and 2 are the successful 2-hour
and 4-hour differences.  And in general a pairwise slot is a function of its
own index's pair alone, so a per-index failure never changes the result at
any sibling index. -/
theorem claim2_pairwise_isolation :
    handleTimeCalculator envC
      { operation := .diff,
        base_time := some (.inr
          ["2024-01-01T10:00:00Z", "invalid", "2024-01-03T10:00:00Z"]),
        compare_time := some (.inr
          ["2024-01-01T12:00:00Z", "2024-01-02T12:00:00Z", "2024-01-03T14:00:00Z"]) } =
      .ok (.success ⟨"diff", "pairwise",
        .diffBatch 3
          [.ok (.fiveF ⟨0, 2, 0, 0, 0, 7200000⟩),
           .err "Invalid base_time at index 1: unparsable" 1 "Invalid DateTime"
             "2024-01-02T12:00:00.000+00:00",
           .ok (.fiveF ⟨0, 4, 0, 0, 0, 14400000⟩)]
          "pairwise", none⟩) ∧
    (∀ (env : Env) (isDiff : Bool) (bs cs : List DT) (i : Nat),
      i < min bs.length cs.length →
      (executePairwise env isDiff bs cs)[i]? =
        some (pairItemAt env isDiff bs cs i)) := by
  constructor
  · rfl
  · intro env isDiff bs cs i h
    simp [executePairwise, List.getElem?_map, List.getElem?_range, h]

/-- C2 witness: slot 1 of a concrete two-pair batch is exactly the item
computed from pair 1. -/
theorem claim2_pairwise_isolation_witness :
    (executePairwise envC true [.ok ⟨0, "system"⟩, .error "unparsable"]
      [.ok ⟨3600000, "system"⟩, .ok ⟨0, "system"⟩])[1]? =
      some (pairItemAt envC true [.ok ⟨0, "system"⟩, .error "unparsable"]
        [.ok ⟨3600000, "system"⟩, .ok ⟨0, "system"⟩] 1) :=
  claim2_pairwise_isolation.2 envC true _ _ 1 (by decide)

/-! ## Claim C3 -/

/-- C3: ceiling enforcement.  (1) An add request over a base sequence of
exactly 10,000 valid timestamps with a duration unit set succeeds with
`count = 10000`.  (2) One over 10,001 elements is rejected by the planner's
ceiling with the operation-count-exceeded message, valid or not.  (3) Every
branch of the planner rejects a resolved plan whose operation count exceeds
the fixed ceiling, and (4) a planner rejection short-circuits the handler
before any parsing or arithmetic, returning the structured error.  (5) For
add/subtract a second, stricter check sums both sequence lengths (rather than
using the planner's interaction count): a pairwise-planned add whose two
sequences jointly exceed the ceiling is rejected by the add-specific
message even though the planner's count passed. -/
theorem claim3_ceiling_enforcement :
    (∀ (env : Env) (bs : List String),
      (∀ s ∈ bs, (fromISO s).isOk = true) → bs.length = 10000 →
      successCount (handleTimeCalculator env
        { operation := .add, base_time := some (.inr bs), days := some 1 }) =
        some 10000) ∧
    (∀ (env : Env) (bs : List String), bs.length = 10001 →
      handleTimeCalculator env
        { operation := .add, base_time := some (.inr bs), days := some 1 } =
        .ok (.errorResp "add" (planCountMsg 10001 "many_to_single"))) ∧
    (∀ (mode : String) (count : Nat) (b c : List String),
      count > MAX_OPERATIONS →
      planFinish mode count b c = .error (planCountMsg count mode)) ∧
    (∀ (env : Env) (a : Args) (e : String),
      planOperations env a.base_time a.compare_time
        (a.interaction_mode.getD .auto_detect) = .error e →
      handleTimeCalculator env a = .ok (.errorResp a.operation.str e)) ∧
    (∀ (env : Env) (bs cs : List String),
      1 < bs.length → 1 < cs.length →
      min bs.length cs.length ≤ MAX_OPERATIONS →
      MAX_OPERATIONS < bs.length + cs.length →
      handleTimeCalculator env
        { operation := .add, base_time := some (.inr bs),
          compare_time := some (.inr cs), days := some 1 } =
        .ok (.errorResp "add" (addCountMsg (bs.length + cs.length) "add"))) := by
  refine ⟨?_, ?_, ?_, ?_, ?_⟩
  · intro env bs hv hlen
    have hplan : planOperations env (some (.inr bs)) none .auto_detect =
        .ok ⟨"many_to_single", bs, []⟩ := by
      unfold planOperations
      simp only [show (if jsFalsy none = true then ([] : List String)
          else safelyParseTimeArray env none) = [] from rfl,
        show (if jsFalsy (some (Sum.inr bs)) = true then []
          else safelyParseTimeArray env (some (Sum.inr bs))) = bs from rfl,
        Bool.and_eq_true, decide_eq_true_eq]
      rw [if_neg (fun hcon => by omega), if_neg (fun hcon => by omega),
        if_pos ⟨by omega, by simp⟩]
      unfold planFinish
      rw [if_neg (by simp only [MAX_OPERATIONS]; omega)]
    have hv2 : ∀ s ∈ safelyParseTimeArray env (some (.inr bs)),
        (parseOne env none s).isOk = true := hv
    have hparse := parseTimestamps_allValid env (some (.inr bs)) none
      "base_time" ("many_to_single" == "pairwise") hv2
    have hok : ∀ u ∈ bs.map (parseOne env none), u.isOk = true := by
      intro u hu
      rcases List.mem_map.mp hu with ⟨s, hs, rfl⟩
      exact hv s hs
    obtain ⟨rs, happ, hrslen⟩ := applyDuration_allValid
      (bs.map (parseOne env none)) ⟨none, none, some 1, none, none, none⟩
      true hok
    simp only [handleTimeCalculator, Option.getD_none]
    rw [hplan]
    simp only []
    rw [show safelyParseTimeArray env (some (Sum.inr bs)) = bs from rfl] at hparse
    rw [hparse]
    simp only [addSubBranch, Op.str]
    rw [if_neg (by
      simp only [show jsFalsy (none : TimeField) = true from rfl, if_true,
        List.length_map, MAX_OPERATIONS]
      omega)]
    rw [if_neg (by simp [DurationObject.isEmpty, Args.duration])]
    have hdur : Args.duration { operation := .add, base_time := some (.inr bs), days := some 1 } = ⟨none, none, some 1, none, none, none⟩ := rfl
    rw [hdur]
    simp only [show (Op.add == Op.add) = true from rfl]
    rw [happ]
    simp only [show jsFalsy (none : TimeField) = true from rfl, if_true]
    rw [if_neg (by simp only [List.length_map, beq_iff_eq]; omega)]
    simp only [formatResults, Bool.false_and, Bool.false_eq_true, if_false,
      successCount, formatRF]
    rw [hrslen, List.length_map, hlen]
  · intro env bs hlen
    refine handle_plan_error env _ _ ?_
    simp only [Option.getD_none]
    unfold planOperations
    simp only [show (if jsFalsy none = true then ([] : List String)
        else safelyParseTimeArray env none) = [] from rfl,
      show (if jsFalsy (some (Sum.inr bs)) = true then []
        else safelyParseTimeArray env (some (Sum.inr bs))) = bs from rfl,
      Bool.and_eq_true, decide_eq_true_eq]
    rw [if_neg (fun hcon => by omega), if_neg (fun hcon => by omega),
      if_pos ⟨by omega, by simp⟩]
    unfold planFinish
    rw [if_pos (by simp only [MAX_OPERATIONS]; omega), hlen]
  · exact planFinish_over
  · exact handle_plan_error
  · intro env bs cs hb hc hmin hsum
    have hplan : planOperations env (some (.inr bs)) (some (.inr cs))
        .auto_detect =
        .ok ⟨"pairwise", bs.take (min bs.length cs.length),
          cs.take (min bs.length cs.length)⟩ := by
      unfold planOperations
      simp only [show (if jsFalsy (some (Sum.inr bs)) = true then []
          else safelyParseTimeArray env (some (Sum.inr bs))) = bs from rfl,
        show (if jsFalsy (some (Sum.inr cs)) = true then []
          else safelyParseTimeArray env (some (Sum.inr cs))) = cs from rfl,
        Bool.and_eq_true, decide_eq_true_eq]
      rw [if_neg (fun hcon => by omega), if_neg (fun hcon => by omega),
        if_neg (fun hcon => by omega)]
      unfold planFinish
      rw [if_neg (by omega)]
    have hparse : parseTimestamps env (some (.inr bs)) none "base_time"
        ("pairwise" == "pairwise") = .ok (bs.map (parseOne env none)) := by
      have hspa : safelyParseTimeArray env (some (Sum.inr bs)) = bs := rfl
      have htrue : (("pairwise" == "pairwise") : Bool) = true := rfl
      simp only [parseTimestamps, hspa, htrue, Bool.true_and]
      by_cases hemp : (List.filterMap (invalidEntry env none) bs).isEmpty = true
      · simp [hemp]
      · simp [hemp]
    simp only [handleTimeCalculator, Option.getD_none]
    rw [hplan]
    simp only []
    rw [hparse]
    simp only [addSubBranch, Op.str]
    have hcount : (List.map (parseOne env none) bs).length +
        (if jsFalsy (some (Sum.inr cs)) = true then 0
         else (safelyParseTimeArray env (some (Sum.inr cs))).length) =
        bs.length + cs.length := by
      rw [List.length_map]
      rfl
    rw [hcount]
    rw [if_pos hsum]

/-- C3 witness: the ceiling behaviors at concrete inputs — a 10,000-element
valid base sequence succeeds with count 10000; a 10,001-element one is
rejected by the planner; a pairwise add with 5,001 + 5,002 elements passes
the planner but is rejected by the add-specific summed check. -/
theorem claim3_ceiling_enforcement_witness :
    successCount (handleTimeCalculator envC
      { operation := .add,
        base_time := some (.inr (List.replicate 10000 "2024-01-01T00:00:00Z")),
        days := some 1 }) = some 10000 ∧
    handleTimeCalculator envC
      { operation := .add,
        base_time := some (.inr (List.replicate 10001 "2024-01-01T00:00:00Z")),
        days := some 1 } =
      .ok (.errorResp "add" (planCountMsg 10001 "many_to_single")) ∧
    handleTimeCalculator envC
      { operation := .add,
        base_time := some (.inr (List.replicate 5001 "2024-01-01T00:00:00Z")),
        compare_time := some (.inr (List.replicate 5002 "2024-01-02T00:00:00Z")),
        days := some 1 } =
      .ok (.errorResp "add" (addCountMsg 10003 "add")) := by
  refine ⟨?_, ?_, ?_⟩
  · exact claim3_ceiling_enforcement.1 envC _
      (by
        intro s hs
        rw [List.eq_of_mem_replicate hs]
        rfl)
      (by rw [List.length_replicate])
  · exact claim3_ceiling_enforcement.2.1 envC _ (by rw [List.length_replicate])
  · have h := claim3_ceiling_enforcement.2.2.2.2 envC
      (List.replicate 5001 "2024-01-01T00:00:00Z")
      (List.replicate 5002 "2024-01-02T00:00:00Z")
      (by rw [List.length_replicate]; norm_num)
      (by rw [List.length_replicate]; norm_num)
      (by rw [List.length_replicate, List.length_replicate, MAX_OPERATIONS]; norm_num)
      (by rw [List.length_replicate, List.length_replicate, MAX_OPERATIONS]; norm_num)
    rw [List.length_replicate, List.length_replicate] at h
    exact h

/-! ## Claim C4 -/

/-- C4: with `auto_detect`, the planner resolves the effective mode exactly
by the cardinality table — both counts ≤ 1 gives single_to_single; base 1
with compare > 1 gives single_to_many; base > 1 with compare ≤ 1 gives
many_to_single; both > 1 gives pairwise with both sequences truncated to the
shorter length.  (The within-ceiling hypotheses keep the plans below the
separately-verified ceiling rejection.) -/
theorem claim4_auto_detect_table (env : Env) (b c : List String) :
    (b.length ≤ 1 → c.length ≤ 1 →
      planOperations env (some (.inr b)) (some (.inr c)) .auto_detect =
        .ok ⟨"single_to_single", b, c⟩) ∧
    (b.length = 1 → 1 < c.length → c.length ≤ MAX_OPERATIONS →
      planOperations env (some (.inr b)) (some (.inr c)) .auto_detect =
        .ok ⟨"single_to_many", b, c⟩) ∧
    (1 < b.length → c.length ≤ 1 → b.length ≤ MAX_OPERATIONS →
      planOperations env (some (.inr b)) (some (.inr c)) .auto_detect =
        .ok ⟨"many_to_single", b, c⟩) ∧
    (1 < b.length → 1 < c.length → min b.length c.length ≤ MAX_OPERATIONS →
      planOperations env (some (.inr b)) (some (.inr c)) .auto_detect =
        .ok ⟨"pairwise", b.take (min b.length c.length),
          c.take (min b.length c.length)⟩) := by
  have hb : (if jsFalsy (some (Sum.inr b)) = true then []
      else safelyParseTimeArray env (some (Sum.inr b))) = b := rfl
  have hc : (if jsFalsy (some (Sum.inr c)) = true then []
      else safelyParseTimeArray env (some (Sum.inr c))) = c := rfl
  refine ⟨?_, ?_, ?_, ?_⟩
  · intro h1 h2
    unfold planOperations
    simp only [hb, hc, Bool.and_eq_true, decide_eq_true_eq]
    rw [if_pos ⟨h1, h2⟩]
    unfold planFinish
    rw [if_neg (by simp only [MAX_OPERATIONS]; omega)]
  · intro h1 h2 h3
    unfold planOperations
    simp only [hb, hc, Bool.and_eq_true, decide_eq_true_eq]
    rw [if_neg (fun hcon => by omega), if_pos ⟨h1, h2⟩]
    unfold planFinish
    rw [if_neg (by omega)]
  · intro h1 h2 h3
    unfold planOperations
    simp only [hb, hc, Bool.and_eq_true, decide_eq_true_eq]
    rw [if_neg (fun hcon => by omega), if_neg (fun hcon => by omega),
      if_pos ⟨h1, h2⟩]
    unfold planFinish
    rw [if_neg (by omega)]
  · intro h1 h2 h3
    unfold planOperations
    simp only [hb, hc, Bool.and_eq_true, decide_eq_true_eq]
    rw [if_neg (fun hcon => by omega), if_neg (fun hcon => by omega),
      if_neg (fun hcon => by omega)]
    unfold planFinish
    rw [if_neg (by omega)]

/-- C4 witness: the four rows of the table at concrete sequences, including
pairwise truncation of 3-and-2-element sequences to length 2. -/
theorem claim4_auto_detect_table_witness :
    planOperations envC (some (.inr ["a"])) (some (.inr ["x"])) .auto_detect =
      .ok ⟨"single_to_single", ["a"], ["x"]⟩ ∧
    planOperations envC (some (.inr ["a"])) (some (.inr ["x", "y"])) .auto_detect =
      .ok ⟨"single_to_many", ["a"], ["x", "y"]⟩ ∧
    planOperations envC (some (.inr ["a", "b"])) (some (.inr ["x"])) .auto_detect =
      .ok ⟨"many_to_single", ["a", "b"], ["x"]⟩ ∧
    planOperations envC (some (.inr ["a", "b", "d"])) (some (.inr ["x", "y"]))
        .auto_detect =
      .ok ⟨"pairwise", ["a", "b"], ["x", "y"]⟩ := by
  refine ⟨?_, ?_, ?_, ?_⟩
  · exact (claim4_auto_detect_table envC ["a"] ["x"]).1 (by decide) (by decide)
  · exact (claim4_auto_detect_table envC ["a"] ["x", "y"]).2.1 (by decide)
      (by decide) (by decide)
  · exact (claim4_auto_detect_table envC ["a", "b"] ["x"]).2.2.1 (by decide)
      (by decide) (by decide)
  · have h := (claim4_auto_detect_table envC ["a", "b", "d"] ["x", "y"]).2.2.2
      (by decide) (by decide) (by decide)
    simpa using h

/-! ## Claim C6 -/

/-- Unit rendering `"<n> <unit>[s]"` as the claim words it; the unit text
carries its separating space. -/
def unitText (n : Int) (u : String) : String :=
  toString n ++ u ++ (if n ≠ 1 then "s" else "")

/-- The rendering asserted by the original claim: cascading remainders of the
magnitude over days/hours/minutes/seconds/milliseconds, each non-zero unit
rendered in descending order, the milliseconds unit always included even when
zero, joined by `", "`, with a minus sign prefixed for negative values. -/
def claimRenderC6 (ms : Int) : String :=
  let a := |ms|
  let days := a / 86400000
  let rem₁ := a % 86400000
  let hours := rem₁ / 3600000
  let rem₂ := rem₁ % 3600000
  let minutes := rem₂ / 60000
  let rem₃ := rem₂ % 60000
  let seconds := rem₃ / 1000
  let millis := rem₃ % 1000
  let parts :=
    (if days ≠ 0 then [unitText days " day"] else []) ++
    (if hours ≠ 0 then [unitText hours " hour"] else []) ++
    (if minutes ≠ 0 then [unitText minutes " minute"] else []) ++
    (if seconds ≠ 0 then [unitText seconds " second"] else []) ++
    [unitText millis " millisecond"]
  (if ms < 0 then "-" else "") ++ String.intercalate ", " parts

/-- The rendering the amended claim asserts for the stats human fields:
cascading remainders of the magnitude over days/hours/minutes/seconds only
(milliseconds never rendered), non-zero units in descending order joined by
`", "`, the fixed unsigned text `"0 seconds"` when all four units are zero,
and a minus sign prefixed otherwise for negative values. -/
def amendedRenderC6 (ms : Int) : String :=
  let a := |ms|
  let days := a / 86400000
  let rem₁ := a % 86400000
  let hours := rem₁ / 3600000
  let rem₂ := rem₁ % 3600000
  let minutes := rem₂ / 60000
  let rem₃ := rem₂ % 60000
  let seconds := rem₃ / 1000
  let parts :=
    (if days ≠ 0 then [unitText days " day"] else []) ++
    (if hours ≠ 0 then [unitText hours " hour"] else []) ++
    (if minutes ≠ 0 then [unitText minutes " minute"] else []) ++
    (if seconds ≠ 0 then [unitText seconds " second"] else [])
  if parts.isEmpty then "0 seconds"
  else if ms < 0 then "-" ++ String.intercalate ", " parts
  else String.intercalate ", " parts

/-- C6 counterexample: the claim requires the milliseconds unit to be present
even when zero, so its rendering of a zero duration is `"0 milliseconds"`;
`formatDuration`, which produces every human-readable duration field of the
stats operation, renders `"0 seconds"` instead and never emits a milliseconds
unit. -/
theorem claim6_counterexample :
    formatDuration 0 = "0 seconds" ∧ claimRenderC6 0 = "0 milliseconds" ∧
      formatDuration 0 ≠ claimRenderC6 0 := by
  refine ⟨by rfl, by rfl, by decide⟩

/-- C6 as amended: the stats human-readable duration fields are produced by
`formatDuration`, which renders the cascading day/hour/minute/second
decomposition of the magnitude — each non-zero unit as `"<n> <unit>[s]"` in
descending order joined by `", "`, never a milliseconds unit, the unsigned
`"0 seconds"` when all four units are zero, and a leading minus sign for
negative values otherwise.  (The `duration_between` rendering is separate: it
is Luxon's `toHuman`, embedded as `toHuman`, which renders all seven units
including zeros.) -/
theorem claim6_amended_format (ms : Int) :
    formatDuration ms = amendedRenderC6 ms := by
  simp only [formatDuration, amendedRenderC6, unitText]
  have ha : 0 ≤ |ms| := abs_nonneg ms
  generalize hg : |ms| = a at ha ⊢
  have e₁ : (1000 * 60 * 60 * 24 : Int) = 86400000 := by norm_num
  have e₂ : (1000 * 60 * 60 : Int) = 3600000 := by norm_num
  have e₃ : (1000 * 60 : Int) = 60000 := by norm_num
  have h₁ : a % 86400000 % 3600000 = a % 3600000 :=
    Int.emod_emod_of_dvd _ (by norm_num)
  have h₂ : a % 3600000 % 60000 = a % 60000 :=
    Int.emod_emod_of_dvd _ (by norm_num)
  rw [e₁, e₂, e₃, h₁, h₂]
  have hd : (a / 86400000 > 0) = (a / 86400000 ≠ 0) := by
    simp only [eq_iff_iff]; omega
  have hh : (a % 86400000 / 3600000 > 0) = (a % 86400000 / 3600000 ≠ 0) := by
    simp only [eq_iff_iff]; omega
  have hm : (a % 3600000 / 60000 > 0) = (a % 3600000 / 60000 ≠ 0) := by
    simp only [eq_iff_iff]; omega
  have hs : (a % 60000 / 1000 > 0) = (a % 60000 / 1000 ≠ 0) := by
    simp only [eq_iff_iff]; omega
  simp only [hd, hh, hm, hs]

/-! ## Claim C7 -/

/-- The breakdown carried by a `duration_between` result. -/
def durBreakdown (f : DurFields) : Breakdown :=
  ⟨f.years, f.months, f.days, f.hours, f.minutes, f.seconds, f.milliseconds⟩

/-- C7 counterexample: the round-trip law fails for a pair with compare
before base.  For base 2024-03-31T00:00:00Z and compare 2024-02-29T00:00:00Z
the breakdown is `{months: -1, days: -2}` (the negation of the forward diff),
but adding it back to base lands on 2024-02-27: subtracting one month clamps
March 31 to February 29, after which the two days computed against the
unclamped date overshoot. -/
theorem claim7_counterexample :
    diffOpCore false ⟨mkMs 2024 3 31 0 0 0 0, "system"⟩
        ⟨mkMs 2024 2 29 0 0 0 0, "system"⟩ =
      .breakdown ⟨0, -1, -2, 0, 0, 0, 0, -2678400000,
        toHuman ⟨0, -1, -2, 0, 0, 0, 0⟩⟩ ∧
    plusDuration (mkMs 2024 3 31 0 0 0 0) ⟨0, -1, -2, 0, 0, 0, 0⟩ =
      mkMs 2024 2 27 0 0 0 0 ∧
    mkMs 2024 2 27 0 0 0 0 ≠ mkMs 2024 2 29 0 0 0 0 := by
  refine ⟨by rfl, by rfl, by decide⟩

/-- C7 as amended: the round-trip law holds whenever compare does not precede
base — for every such resolved pair, the `duration_between` breakdown is the
seven-unit Luxon diff, and adding that breakdown back to base reproduces
compare exactly.  (For pairs with compare before base the law can fail, as
the counterexample shows, because the negated breakdown re-applies month
arithmetic to a different anchor date where day-clamping is not
symmetric.) -/
theorem claim7_amended_roundtrip (b c : TimePoint) (h : b.millis ≤ c.millis) :
    diffOpCore false b c =
      .breakdown ⟨(luxonDiff b.millis c.millis).years,
        (luxonDiff b.millis c.millis).months, (luxonDiff b.millis c.millis).days,
        (luxonDiff b.millis c.millis).hours, (luxonDiff b.millis c.millis).minutes,
        (luxonDiff b.millis c.millis).seconds,
        (luxonDiff b.millis c.millis).milliseconds,
        c.millis - b.millis, toHuman (luxonDiff b.millis c.millis)⟩ ∧
    plusDuration b.millis (luxonDiff b.millis c.millis) = c.millis := by
  constructor
  · rfl
  · unfold luxonDiff
    rw [if_neg (by omega)]
    exact diffPos_roundtrip b.millis c.millis

/-- C7 witness: the amended round-trip law applied to the concrete pair
2024-01-15T08:30:00Z ≤ 2025-03-20T14:45:30Z. -/
theorem claim7_amended_roundtrip_witness :
    plusDuration (mkMs 2024 1 15 8 30 0 0)
        (luxonDiff (mkMs 2024 1 15 8 30 0 0) (mkMs 2025 3 20 14 45 30 0)) =
      mkMs 2025 3 20 14 45 30 0 :=
  (claim7_amended_roundtrip ⟨mkMs 2024 1 15 8 30 0 0, "system"⟩
    ⟨mkMs 2025 3 20 14 45 30 0, "system"⟩ (by decide)).2

/-! ## Claim C8 -/

/-- C8 counterexample: the claim says the normalizer always produces a
non-empty sequence, but the single string `"[]"` is a syntactically valid
array literal that parses to zero elements, so the normalizer returns the
empty sequence. -/
theorem claim8_counterexample :
    safelyParseTimeArray envC (some (.inl "[]")) = [] := by
  rfl

/-- C8 as amended: absence yields the one-element current-instant sequence
(the empty string is treated as absent by JS truthiness), arrays pass through
unchanged, a string parsing as a JSON array of strings is replaced by its
elements — possibly zero of them — and any other non-empty string yields its
own one-element sequence; the normalizer never raises, and an empty output
arises only from an empty input array or a string parsing to the empty array
literal. -/
theorem claim8_amended_normalizer (env : Env) :
    (safelyParseTimeArray env none = [env.nowIso] ∧
     safelyParseTimeArray env (some (.inl "")) = [env.nowIso]) ∧
    (∀ l : List String, safelyParseTimeArray env (some (.inr l)) = l) ∧
    (∀ s : String, s ≠ "" → parseJsonStringArray s = none →
      safelyParseTimeArray env (some (.inl s)) = [s]) ∧
    (∀ (s : String) (l : List String), trimStartsWithBracket s = true →
      parseJsonStringArray s = some l →
      safelyParseTimeArray env (some (.inl s)) = l) ∧
    (∀ t : TimeField, safelyParseTimeArray env t = [] →
      t = some (.inr []) ∨
        ∃ s, t = some (.inl s) ∧ parseJsonStringArray s = some []) := by
  refine ⟨⟨rfl, rfl⟩, fun l => rfl, ?_, ?_, ?_⟩
  · intro s hs hp
    simp only [safelyParseTimeArray, if_neg hs]
    rcases hb : trimStartsWithBracket s with _ | _
    · simp
    · simp [hp]
  · intro s l hb hp
    have hs : s ≠ "" := by
      intro h
      rw [h] at hb
      simp [trimStartsWithBracket, skipWs] at hb
    simp [safelyParseTimeArray, if_neg hs, hb, hp]
  · intro t h
    match t with
    | none => simp [safelyParseTimeArray] at h
    | some (.inr l) =>
      left
      simp only [safelyParseTimeArray] at h
      rw [h]
    | some (.inl s) =>
      right
      by_cases hs : s = ""
      · rw [hs] at h
        simp [safelyParseTimeArray] at h
      · simp only [safelyParseTimeArray, if_neg hs] at h
        rcases hb : trimStartsWithBracket s with _ | _
        · rw [hb] at h
          simp at h
        · rw [hb] at h
          simp only [if_true] at h
          rcases hp : parseJsonStringArray s with _ | l
          · rw [hp] at h
            simp at h
          · rw [hp] at h
            have hl : l = [] := h
            exact ⟨s, rfl, by rw [hp, hl]⟩

/-- C8 witness: the amended contract applied at concrete inputs — a plain
string, an array-literal string with two elements, and the recovery of the
empty-output characterization at `"[]"`. -/
theorem claim8_amended_normalizer_witness :
    safelyParseTimeArray envC (some (.inl "2024-01-01")) = ["2024-01-01"] ∧
    safelyParseTimeArray envC (some (.inl "[\"a\",\"b\"]")) = ["a", "b"] := by
  constructor
  · exact (claim8_amended_normalizer envC).2.2.1 "2024-01-01" (by decide) (by rfl)
  · exact (claim8_amended_normalizer envC).2.2.2.1 "[\"a\",\"b\"]" ["a", "b"]
      (by rfl) (by rfl)

/-! ## Claim C9 -/

/-- Auto-detect planning with an absent compare sequence always yields a
non-pairwise plan carrying the normalized base sequence untouched, provided
the base count is within the ceiling. -/
theorem plan_auto_noCompare (env : Env) (t : TimeField)
    (hlen : (safelyParseTimeArray env t).length ≤ MAX_OPERATIONS) :
    ∃ m, planOperations env t none .auto_detect =
        .ok ⟨m, (if jsFalsy t then [] else safelyParseTimeArray env t), []⟩ ∧
      (m == "pairwise") = false := by
  unfold planOperations
  simp only [show (if jsFalsy none = true then ([] : List String)
    else safelyParseTimeArray env none) = [] from rfl,
    Bool.and_eq_true, decide_eq_true_eq]
  rcases hf : jsFalsy t with _ | _
  · simp only [Bool.false_eq_true, if_false]
    by_cases h1 : (safelyParseTimeArray env t).length ≤ 1
    · refine ⟨"single_to_single", ?_, rfl⟩
      rw [if_pos ⟨h1, by simp⟩]
      unfold planFinish
      rw [if_neg (by simp only [List.length_nil, Nat.max_zero, MAX_OPERATIONS]; omega)]
    · refine ⟨"many_to_single", ?_, rfl⟩
      rw [if_neg (fun hcon => h1 hcon.1)]
      rw [if_neg (fun hcon => absurd hcon.2 (by simp))]
      rw [if_pos ⟨by omega, by simp⟩]
      unfold planFinish
      rw [if_neg (by omega)]
  · refine ⟨"single_to_single", ?_, rfl⟩
    simp only [if_true]
    rw [if_pos ⟨by simp, by simp⟩]
    unfold planFinish
    rw [if_neg (by simp [MAX_OPERATIONS])]

/-- C9 counterexample: the claim says an add request with no duration fields
always fails with the empty-duration error and no other error kind, for every
base cardinality.  But the base-time resolution runs first: with the
one-element base `"x"` the handler returns the invalid-timestamp error, never
reaching the empty-duration check. -/
theorem claim9_counterexample :
    handleTimeCalculator envC { operation := .add, base_time := some (.inl "x") } =
      .ok (.errorResp "add" "Invalid base_time format(s): x (unparsable)") ∧
    ("Invalid base_time format(s): x (unparsable)" : String) ≠
      "No duration specified for add operation" := by
  exact ⟨by rfl, by decide⟩

/-- C9 as amended: provided every normalized base timestamp resolves and the
base count is within the ceiling, an add request with no duration unit fields
(and no compare sequence) fails with the empty-duration validation error and
no other error kind, for every base cardinality — one element, many elements,
or defaulted.  (Without those provisos the invalid-timestamp and
count-exceeded errors fire first, as the counterexample shows.) -/
theorem claim9_amended_empty_duration (env : Env) (t : TimeField)
    (hv : ∀ s ∈ safelyParseTimeArray env t, (fromISO s).isOk = true)
    (hlen : (safelyParseTimeArray env t).length ≤ MAX_OPERATIONS) :
    handleTimeCalculator env { operation := .add, base_time := t } =
      .ok (.errorResp "add" "No duration specified for add operation") := by
  obtain ⟨m, hplan, hm⟩ := plan_auto_noCompare env t hlen
  have hparse : parseTimestamps env t none "base_time" (m == "pairwise") =
      .ok ((safelyParseTimeArray env t).map (parseOne env none)) :=
    parseTimestamps_allValid env t none "base_time" (m == "pairwise") hv
  simp only [handleTimeCalculator, Option.getD_none]
  rw [hplan]
  simp only []
  rw [hparse]
  simp only [addSubBranch, Op.str]
  rw [if_neg (by
    simp only [show jsFalsy (none : TimeField) = true from rfl, if_true,
      List.length_map]
    omega)]
  rfl

/-- C9 witness: the amended statement applied to a concrete one-element valid
base sequence. -/
theorem claim9_amended_empty_duration_witness :
    handleTimeCalculator envC
      { operation := .add, base_time := some (.inl "2024-01-01T00:00:00Z") } =
      .ok (.errorResp "add" "No duration specified for add operation") :=
  claim9_amended_empty_duration envC (some (.inl "2024-01-01T00:00:00Z"))
    (by decide) (by decide)

/-! ## Claim C10 -/

/-- The resolved instant of a timestamp string (0 for unparsable input; only
used under parse-success hypotheses). -/
def isoMillis (s : String) : Int :=
  match fromISO s with
  | .ok tp => tp.millis
  | .error _ => 0

/-- A timestamp string carrying explicit zone/offset information that parses
successfully. -/
def goodStr (s : String) : Prop :=
  hasTzSuffix s = true ∧ (fromISO s).isOk = true

/-- All normalized elements of a field are suffixed and parse successfully. -/
def goodField (env : Env) (t : TimeField) : Prop :=
  ∀ s ∈ safelyParseTimeArray env t, goodStr s

theorem parseOne_suffix (env : Env) (z s : String)
    (hz : env.tzValid z = true) (hs : hasTzSuffix s = true)
    (hv : (fromISO s).isOk = true) :
    parseOne env (some z) s = .ok ⟨isoMillis s, z⟩ := by
  rcases isOk_exists _ hv with ⟨tp, htp⟩
  simp [parseOne, hs, setZone, htp, hz, isoMillis]

theorem goodField_parseOk (env : Env) (z : String) (t : TimeField)
    (hz : env.tzValid z = true) (h : goodField env t) :
    ∀ s ∈ safelyParseTimeArray env t, (parseOne env (some z) s).isOk = true := by
  intro s hs
  rw [parseOne_suffix env z s hz (h s hs).1 (h s hs).2]
  rfl

theorem statsParseBase_good (env : Env) (z : String) (hz : env.tzValid z = true) :
    ∀ arr : List String, (∀ s ∈ arr, goodStr s) →
      statsParseBase env (some z) arr = .ok (arr.map isoMillis) := by
  intro arr
  induction arr with
  | nil => intro _; rfl
  | cons s rest ih =>
    intro h
    obtain ⟨hs, hv⟩ := h s (by simp)
    have hrest := ih (fun u hu => h u (by simp [hu]))
    simp [statsParseBase, parseOne_suffix env z s hz hs hv, hrest, Except.map]

theorem hasTzSuffix_ne_empty (s : String) (h : hasTzSuffix s = true) : s ≠ "" := by
  intro he
  rw [he] at h
  exact absurd h (by decide)

theorem durPairs_good (env : Env) (z₁ z₂ : String)
    (hz₁ : env.tzValid z₁ = true) (hz₂ : env.tzValid z₂ = true) :
    ∀ l : List (Nat × String × String),
      (∀ p ∈ l, goodStr p.2.1 ∧ goodStr p.2.2) →
      durPairs env (some z₁) (some z₂) l =
        .ok (l.map fun p => isoMillis p.2.2 - isoMillis p.2.1) := by
  intro l
  induction l with
  | nil => intro _; rfl
  | cons p rest ih =>
    intro h
    rcases p with ⟨i, bs, cs⟩
    obtain ⟨⟨hbs, hbv⟩, ⟨hcs, hcv⟩⟩ := h (i, bs, cs) (by simp)
    have hrest := ih (fun u hu => h u (by simp [hu]))
    have hbne := hasTzSuffix_ne_empty bs hbs
    have hcne := hasTzSuffix_ne_empty cs hcs
    simp [durPairs, hbne, hcne, parseOne_suffix env z₁ bs hz₁ hbs hbv,
      parseOne_suffix env z₂ cs hz₂ hcs hcv, hrest, Except.map]

theorem sortParse_good (env : Env) (z : String) (hz : env.tzValid z = true) :
    ∀ arr : List String, (∀ s ∈ arr, goodStr s) →
      sortParse env (some z) arr =
        .ok (arr.map fun s => ⟨s, isoMillis s, ⟨isoMillis s, z⟩⟩) := by
  intro arr
  induction arr with
  | nil => intro _; rfl
  | cons s rest ih =>
    intro h
    obtain ⟨hs, hv⟩ := h s (by simp)
    have hrest := ih (fun u hu => h u (by simp [hu]))
    simp [sortParse, parseOne_suffix env z s hz hs hv, hrest, Except.map]

/-- Replacement of the display zone inside a sortable item; preserves the
sort key and the original string. -/
def rezone (z : String) (it : SortItem) : SortItem :=
  ⟨it.original, it.timestamp, ⟨it.parsed.millis, z⟩⟩

theorem insertItem_rezone (z : String) (x : SortItem) :
    ∀ l : List SortItem,
      insertItem (rezone z x) (l.map (rezone z)) = (insertItem x l).map (rezone z) := by
  intro l
  induction l with
  | nil => rfl
  | cons y ys ih =>
    simp only [List.map_cons, insertItem,
      show (rezone z y).timestamp = y.timestamp from rfl,
      show (rezone z x).timestamp = x.timestamp from rfl]
    by_cases hc : y.timestamp ≤ x.timestamp
    · rw [if_pos hc, if_pos hc, ih, List.map_cons]
    · rw [if_neg hc, if_neg hc]
      rfl

theorem foldl_insert_rezone (z : String) :
    ∀ (l acc : List SortItem),
      (l.map (rezone z)).foldl (fun a x => insertItem x a) (acc.map (rezone z)) =
        (l.foldl (fun a x => insertItem x a) acc).map (rezone z) := by
  intro l
  induction l with
  | nil => intro acc; rfl
  | cons x xs ih =>
    intro acc
    simp only [List.map_cons, List.foldl_cons]
    rw [insertItem_rezone z x acc]
    exact ih (insertItem x acc)

theorem sortItems_rezone (z : String) (l : List SortItem) :
    sortItems (l.map (rezone z)) = (sortItems l).map (rezone z) := by
  unfold sortItems
  have h := foldl_insert_rezone z l []
  simpa using h

theorem statsBranch_tz (env : Env) (tz1 tz2 : String) (bt ct : TimeField)
    (modeStr : String) (hz1 : env.tzValid tz1 = true)
    (hz2 : env.tzValid tz2 = true) (hb : goodField env bt)
    (hc : goodField env ct) :
    statsBranch env
      { operation := .stats, base_time := bt, compare_time := ct,
        timezone := some tz1 } modeStr =
    statsBranch env
      { operation := .stats, base_time := bt, compare_time := ct,
        timezone := some tz2 } modeStr := by
  simp only [statsBranch]
  by_cases hf : jsFalsy bt = true
  · rw [if_pos hf, if_pos hf]
  · rw [if_neg hf, if_neg hf]
    by_cases hlen : (safelyParseTimeArray env bt).length < 2
    · rw [if_pos hlen, if_pos hlen]
    · rw [if_neg hlen, if_neg hlen]
      rw [statsParseBase_good env tz1 hz1 _ hb,
        statsParseBase_good env tz2 hz2 _ hb]
      simp only []
      by_cases hto : (match (if jsFalsy ct = true then none
          else some (safelyParseTimeArray env ct)) with
        | none => true
        | some cts => cts.isEmpty) = true
      · rw [if_pos hto, if_pos hto]
      · rw [if_neg hto, if_neg hto]
        have hgoodPairs : ∀ p ∈ ((safelyParseTimeArray env bt).zip
            ((if jsFalsy ct = true then none
              else some (safelyParseTimeArray env ct)).getD [])).enum,
            goodStr p.2.1 ∧ goodStr p.2.2 := by
          intro p hp
          rcases p with ⟨i, ps, qs⟩
          rw [List.mem_enum_iff_getElem?] at hp
          have h2 := List.getElem?_mem hp
          obtain ⟨h3, h4⟩ := List.of_mem_zip h2
          refine ⟨hb ps h3, ?_⟩
          rcases hfc : jsFalsy ct with _ | _
          · rw [hfc] at h4
            simp only [Bool.false_eq_true, if_false, Option.getD_some] at h4
            exact hc qs h4
          · rw [hfc] at h4
            simp at h4
        rw [show Option.or none (some tz1) = some tz1 from rfl,
          show Option.or none (some tz2) = some tz2 from rfl]
        rw [durPairs_good env tz1 tz1 hz1 hz1 _ hgoodPairs,
          durPairs_good env tz2 tz2 hz2 hz2 _ hgoodPairs]

theorem sortBranch_tz (env : Env) (tz1 tz2 : String) (bt : TimeField)
    (modeStr : String) (hz1 : env.tzValid tz1 = true)
    (hz2 : env.tzValid tz2 = true) (hb : goodField env bt) :
    sortNumerics (sortBranch env
      { operation := .sort, base_time := bt, timezone := some tz1 } modeStr) =
    sortNumerics (sortBranch env
      { operation := .sort, base_time := bt, timezone := some tz2 } modeStr) := by
  simp only [sortBranch]
  by_cases hf : jsFalsy bt = true
  · rw [if_pos hf, if_pos hf]
  · rw [if_neg hf, if_neg hf]
    by_cases hlen : (safelyParseTimeArray env bt).length < 2
    · rw [if_pos hlen, if_pos hlen]
    · rw [if_neg hlen, if_neg hlen]
      rw [sortParse_good env tz1 hz1 _ hb, sortParse_good env tz2 hz2 _ hb]
      simp only []
      have hmap : (safelyParseTimeArray env bt).map
          (fun s => (⟨s, isoMillis s, ⟨isoMillis s, tz2⟩⟩ : SortItem)) =
          ((safelyParseTimeArray env bt).map
            (fun s => (⟨s, isoMillis s, ⟨isoMillis s, tz1⟩⟩ : SortItem))).map
            (rezone tz2) := by
        rw [List.map_map]
        rfl
      rw [hmap, sortItems_rezone]
      rcases hsorted : sortItems ((safelyParseTimeArray env bt).map
          (fun s => (⟨s, isoMillis s, ⟨isoMillis s, tz1⟩⟩ : SortItem))) with _ | ⟨e, rest⟩
      · rfl
      · have hlast : ∃ la, (e :: rest).getLast? = some la := by
          cases hl : (e :: rest).getLast? with
          | none => simp [List.getLast?_eq_none_iff] at hl
          | some la => exact ⟨la, rfl⟩
        obtain ⟨la, hla⟩ := hlast
        rw [show ((e :: rest).map (rezone tz2)).getLast? =
          ((e :: rest).getLast?).map (rezone tz2) from List.getLast?_map _ _]
        rw [hla]
        simp only [List.map_cons, List.head?_cons, sortNumerics, List.map_map]
        rw [show Option.map (rezone tz2) (some la) = some (rezone tz2 la) from rfl]
        rw [show SortItem.timestamp ∘ rezone tz2 = SortItem.timestamp from
          funext fun x => rfl]
        rfl

/-- C10: for sort and stats requests whose timestamp strings all carry
explicit zone/offset information and parse successfully, two runs differing
only in the (valid) timezone parameter agree on everything numeric — the
stats output is identical outright, and the sort output has identical
`sorted_timestamps` and `total_span_ms`; the timezone parameter only
re-labels display strings. -/
theorem claim10_timezone_independence (env : Env) (tz1 tz2 : String)
    (hz1 : env.tzValid tz1 = true) (hz2 : env.tzValid tz2 = true) :
    (∀ bt ct : TimeField, goodField env bt → goodField env ct →
      handleTimeCalculator env
        { operation := .stats, base_time := bt, compare_time := ct,
          timezone := some tz1 } =
      handleTimeCalculator env
        { operation := .stats, base_time := bt, compare_time := ct,
          timezone := some tz2 }) ∧
    (∀ bt : TimeField, goodField env bt →
      sortNumerics (handleTimeCalculator env
        { operation := .sort, base_time := bt, timezone := some tz1 }) =
      sortNumerics (handleTimeCalculator env
        { operation := .sort, base_time := bt, timezone := some tz2 })) := by
  constructor
  · intro bt ct hb hc
    simp only [handleTimeCalculator, Option.getD_none]
    rcases hp : planOperations env bt ct .auto_detect with e | plan
    · rfl
    · simp only []
      rw [parseTimestamps_allValid env bt (some tz1) "base_time"
        (plan.interaction_mode == "pairwise") (goodField_parseOk env tz1 bt hz1 hb),
        parseTimestamps_allValid env bt (some tz2) "base_time"
        (plan.interaction_mode == "pairwise") (goodField_parseOk env tz2 bt hz2 hb)]
      exact statsBranch_tz env tz1 tz2 bt ct plan.interaction_mode hz1 hz2 hb hc
  · intro bt hb
    simp only [handleTimeCalculator, Option.getD_none]
    rcases hp : planOperations env bt none .auto_detect with e | plan
    · rfl
    · simp only []
      rw [parseTimestamps_allValid env bt (some tz1) "base_time"
        (plan.interaction_mode == "pairwise") (goodField_parseOk env tz1 bt hz1 hb),
        parseTimestamps_allValid env bt (some tz2) "base_time"
        (plan.interaction_mode == "pairwise") (goodField_parseOk env tz2 bt hz2 hb)]
      exact sortBranch_tz env tz1 tz2 bt plan.interaction_mode hz1 hz2 hb

/-- C10 witness: the hyperproperty applied with the two concrete valid zones
of the witness environment to concrete suffixed timestamp lists. -/
theorem claim10_timezone_independence_witness :
    handleTimeCalculator envC
      { operation := .stats,
        base_time := some (.inr ["2024-01-01T00:00:00Z", "2024-01-02T00:00:00Z"]),
        compare_time := none, timezone := some "UTC" } =
    handleTimeCalculator envC
      { operation := .stats,
        base_time := some (.inr ["2024-01-01T00:00:00Z", "2024-01-02T00:00:00Z"]),
        compare_time := none, timezone := some "America/New_York" } ∧
    sortNumerics (handleTimeCalculator envC
      { operation := .sort,
        base_time := some (.inr ["2024-03-15T10:30:00Z", "2024-01-01T08:00:00Z"]),
        timezone := some "UTC" }) =
    sortNumerics (handleTimeCalculator envC
      { operation := .sort,
        base_time := some (.inr ["2024-03-15T10:30:00Z", "2024-01-01T08:00:00Z"]),
        timezone := some "America/New_York" }) := by
  constructor
  · exact (claim10_timezone_independence envC "UTC" "America/New_York"
      (by rfl) (by rfl)).1
      (some (.inr ["2024-01-01T00:00:00Z", "2024-01-02T00:00:00Z"])) none
      (by
        intro s hs
        rw [show safelyParseTimeArray envC
            (some (.inr ["2024-01-01T00:00:00Z", "2024-01-02T00:00:00Z"])) =
          ["2024-01-01T00:00:00Z", "2024-01-02T00:00:00Z"] from rfl] at hs
        fin_cases hs <;> exact ⟨by decide, by decide⟩)
      (by
        intro s hs
        rw [show safelyParseTimeArray envC none =
          ["2024-06-15T12:00:00.000+00:00"] from rfl] at hs
        fin_cases hs <;> exact ⟨by decide, by decide⟩)
  · exact (claim10_timezone_independence envC "UTC" "America/New_York"
      (by rfl) (by rfl)).2
      (some (.inr ["2024-03-15T10:30:00Z", "2024-01-01T08:00:00Z"]))
      (by
        intro s hs
        rw [show safelyParseTimeArray envC
            (some (.inr ["2024-03-15T10:30:00Z", "2024-01-01T08:00:00Z"])) =
          ["2024-03-15T10:30:00Z", "2024-01-01T08:00:00Z"] from rfl] at hs
        fin_cases hs <;> exact ⟨by decide, by decide⟩)

end Chrono
